import Mathlib

/-!
Verification development for the BHL25 green-code static analyzers.

The Python sources embedded here:
  * `builtin_eco_analysis` and `get_eco_score` from
    `green_code_V1.0/build/resources/main/scripts/ecocode_analyzer.py`
    (the "full" analyzer and its scoring policy);
  * `estimate_co2` from
    `green_injector_V0.001/src/main/resources/scripts/co2_estimator.py`
    (the hardware-aware emissions estimator);
  * `mock_static_analysis` and the `analyze_static` HTTP handler from
    `GreenCodeDemo/main.py` (the "simple" scoring policy and the boundary
    layer).

Source text is modelled as `List Char`; Python floats are modelled as exact
rationals (every constant in the sources is a short decimal literal, and the
claims under study are structural, not about binary rounding).  Presentation
strings (`message`, `suggestion`, `source`, `note` fields) carry no logical
content and are not modelled.  The single call into CPython's `ast` module is
modelled as an oracle argument (see `PyFunctionDef`).
-/

/-- Python `str.isspace` characters relevant to `\s`, `strip` and `lstrip`
(ASCII whitespace; the analyzed snippets are ASCII). -/
def pyIsSpace (c : Char) : Bool :=
  c = ' ' || c = '\t' || c = '\n' || c = '\r' || c = '\x0b' || c = '\x0c'

/-- Regex `\w`: letters, digits and underscore. -/
def isWordChar (c : Char) : Bool :=
  c.isAlphanum || c = '_'

/-- Python `s.split(sep)` for a one-character separator: always returns at
least one piece; `"".split(sep) == [""]`. -/
def pySplit (sep : Char) : List Char → List (List Char)
  | [] => [[]]
  | c :: cs =>
    match pySplit sep cs with
    | [] => [[c]]
    | l :: ls => if c = sep then [] :: l :: ls else (c :: l) :: ls

/-- Python `str.strip()`: drop whitespace from both ends. -/
def pyStrip (s : List Char) : List Char :=
  ((s.dropWhile pyIsSpace).reverse.dropWhile pyIsSpace).reverse

/-- `len(line) - len(line.lstrip())`: the leading-whitespace count. -/
def pyIndent (s : List Char) : Nat :=
  (s.takeWhile pyIsSpace).length

/-- Python `pat in s` (substring containment). -/
def pyIn (pat : List Char) : List Char → Bool
  | [] => pat.isEmpty
  | s@(_ :: t) => pat.isPrefixOf s || pyIn pat t

/-- Python `str.lower()` (ASCII). -/
def pyLower (s : List Char) : List Char :=
  s.map Char.toLower

/-- Consume an exact literal, returning the remainder. -/
def stripLit : List Char → List Char → Option (List Char)
  | [], s => some s
  | _ :: _, [] => none
  | c :: cs, d :: ds => if c = d then stripLit cs ds else none

/-- Consume one-or-more characters of a class, maximal munch (`\s+`, `\w+`,
`\d+`: each is followed in the regexes below by a disjoint class, so maximal
munch coincides with the backtracking semantics). -/
def munch1 (p : Char → Bool) : List Char → Option (List Char)
  | [] => none
  | c :: cs => if p c then some (cs.dropWhile p) else none

def kwFor : List Char := "for".data
def kwIn : List Char := "in".data
def kwRange : List Char := "range".data
def kwWhile : List Char := "while".data
def kwOpen : List Char := "open".data
def kwFrom : List Char := "from".data
def kwImportTok : List Char := "import".data
def lparChar : Char := '('
def starChar : Char := '*'

/-- `re.match(r'for\s+\w+\s+in\s+range\s*\(', line_stripped)` as a Boolean. -/
def matchForRange (s : List Char) : Bool :=
  (do
    let s ← stripLit kwFor s
    let s ← munch1 pyIsSpace s
    let s ← munch1 isWordChar s
    let s ← munch1 pyIsSpace s
    let s ← stripLit kwIn s
    let s ← munch1 pyIsSpace s
    let s ← stripLit kwRange s
    let s := s.dropWhile pyIsSpace
    let _ ← stripLit [lparChar] s
    pure ()).isSome

/-- `re.match(r'for\s+\w+\s+in\s+', line_stripped)` (the estimator's for-loop
test, no `range` required). -/
def matchForIn (s : List Char) : Bool :=
  (do
    let s ← stripLit kwFor s
    let s ← munch1 pyIsSpace s
    let s ← munch1 isWordChar s
    let s ← munch1 pyIsSpace s
    let s ← stripLit kwIn s
    let _ ← munch1 pyIsSpace s
    pure ()).isSome

/-- `re.match(r'while\s+', line_stripped)`. -/
def matchWhile (s : List Char) : Bool :=
  (do
    let s ← stripLit kwWhile s
    let _ ← munch1 pyIsSpace s
    pure ()).isSome

/-- Digit run to its decimal value. -/
def digitsToNat (ds : List Char) : Nat :=
  ds.foldl (fun n c => 10 * n + (c.toNat - '0'.toNat)) 0

/-- One attempt of `range\s*\(\s*(\d+)\s*\)` anchored at the head. -/
def rangeOneAt (s : List Char) : Option Nat :=
  do
    let s ← stripLit kwRange s
    let s := s.dropWhile pyIsSpace
    let s ← stripLit [lparChar] s
    let s := s.dropWhile pyIsSpace
    let ds := s.takeWhile Char.isDigit
    if ds.isEmpty then none
    else
      let s := s.dropWhile Char.isDigit
      let s := s.dropWhile pyIsSpace
      let _ ← stripLit [')'] s
      pure (digitsToNat ds)

/-- `re.search(r'range\s*\(\s*(\d+)\s*\)', line)`: leftmost match, captured
count. -/
def searchRangeOne : List Char → Option Nat
  | [] => none
  | s@(_ :: t) =>
    match rangeOneAt s with
    | some n => some n
    | none => searchRangeOne t

/-- One attempt of `range\s*\(\s*(\d+)\s*(?:,\s*(\d+))?\s*\)` anchored at the
head: first bound plus the optional second bound. -/
def rangeTwoAt (s : List Char) : Option (Nat × Option Nat) :=
  do
    let s ← stripLit kwRange s
    let s := s.dropWhile pyIsSpace
    let s ← stripLit [lparChar] s
    let s := s.dropWhile pyIsSpace
    let ds := s.takeWhile Char.isDigit
    if ds.isEmpty then none
    else
      let s := s.dropWhile Char.isDigit
      let s := s.dropWhile pyIsSpace
      match s with
      | ',' :: s =>
        let s := s.dropWhile pyIsSpace
        let ds2 := s.takeWhile Char.isDigit
        if ds2.isEmpty then none
        else
          let s := s.dropWhile Char.isDigit
          let s := s.dropWhile pyIsSpace
          let _ ← stripLit [')'] s
          pure (digitsToNat ds, some (digitsToNat ds2))
      | _ =>
        let _ ← stripLit [')'] s
        pure (digitsToNat ds, none)

/-- `re.search(r'range\s*\(\s*(\d+)\s*(?:,\s*(\d+))?\s*\)', line)`. -/
def searchRangeTwo : List Char → Option (Nat × Option Nat)
  | [] => none
  | s@(_ :: t) =>
    match rangeTwoAt s with
    | some r => some r
    | none => searchRangeTwo t

/-- One attempt of `[=]\s*open\s*\(` anchored at the head. -/
def assignOpenAt (s : List Char) : Bool :=
  (do
    let s ← stripLit ['='] s
    let s := s.dropWhile pyIsSpace
    let s ← stripLit kwOpen s
    let s := s.dropWhile pyIsSpace
    let _ ← stripLit [lparChar] s
    pure ()).isSome

/-- `re.search(r'[=]\s*open\s*\(', line)` as a Boolean. -/
def searchAssignOpen : List Char → Bool
  | [] => false
  | s@(_ :: t) => assignOpenAt s || searchAssignOpen t

/-- `import\s+\*` anchored at the head. -/
def importStarAt (s : List Char) : Bool :=
  (do
    let s ← stripLit kwImportTok s
    let s ← munch1 pyIsSpace s
    let _ ← stripLit [starChar] s
    pure ()).isSome

/-- `import\s+\*` somewhere in `s`. -/
def searchImportStar : List Char → Bool
  | [] => false
  | s@(_ :: t) => importStarAt s || searchImportStar t

/-- `re.match(r'from\s+\w+.*import\s+\*', line_stripped)`: after `from`,
whitespace and at least one word character, the wildcard-import tail must
occur at an offset of at least one (the `\w+` consumes one character and `.*`
absorbs the rest). -/
def matchWildcardImport (s : List Char) : Bool :=
  match stripLit kwFrom s with
  | none => false
  | some s1 =>
    match munch1 pyIsSpace s1 with
    | none => false
    | some s2 =>
      match s2 with
      | [] => false
      | c :: rest => isWordChar c && searchImportStar rest

/-- Candidate for the group `\w+\([^)]*\)` anchored at the head: the matched
substring (the classes make the munching deterministic). -/
def callGroupAt (s : List Char) : Option (List Char) :=
  let w := s.takeWhile isWordChar
  if w.isEmpty then none
  else
    match s.dropWhile isWordChar with
    | '(' :: s2 =>
      let inner := s2.takeWhile (fun c => c ≠ ')')
      match s2.dropWhile (fun c => c ≠ ')') with
      | ')' :: _ => some (w ++ lparChar :: inner ++ [')'])
      | _ => none
    | _ => none

/-- `re.search(r'(\w+\([^)]*\)).*\1', line)`: some call-looking substring
occurs a second time, disjointly, later on the same line. -/
def repeatedCallHit : List Char → Bool
  | [] => false
  | s@(_ :: t) =>
    (match callGroupAt s with
     | some tok => pyIn tok (s.drop tok.length)
     | none => false) || repeatedCallHit t

/-- One attempt of `sleep\s*\(\s*(\d+(?:\.\d+)?)\s*\)` anchored at the head:
the captured literal as an exact rational. -/
def sleepAt (s : List Char) : Option ℚ :=
  do
    let s ← stripLit ("sleep".data) s
    let s := s.dropWhile pyIsSpace
    let s ← stripLit [lparChar] s
    let s := s.dropWhile pyIsSpace
    let ds := s.takeWhile Char.isDigit
    if ds.isEmpty then none
    else
      let s := s.dropWhile Char.isDigit
      match s with
      | '.' :: s2 =>
        let fs := s2.takeWhile Char.isDigit
        if fs.isEmpty then none
        else
          let s3 := (s2.dropWhile Char.isDigit).dropWhile pyIsSpace
          let _ ← stripLit [')'] s3
          pure ((digitsToNat ds : ℚ) + (digitsToNat fs : ℚ) / (10 : ℚ) ^ fs.length)
      | _ =>
        let s3 := s.dropWhile pyIsSpace
        let _ ← stripLit [')'] s3
        pure ((digitsToNat ds : ℚ))

/-- `re.search(r'sleep\s*\(\s*(\d+(?:\.\d+)?)\s*\)', line)`. -/
def searchSleep : List Char → Option ℚ
  | [] => none
  | s@(_ :: t) =>
    match sleepAt s with
    | some q => some q
    | none => searchSleep t

/-! ## The full analyzer: `builtin_eco_analysis` (ecocode_analyzer.py) -/

/-- Issue severities used by the analyzers (spec section 3). -/
inductive Severity
  | error
  | warning
  | info
deriving DecidableEq

/-- CO2-impact levels used by the analyzers (spec section 3). -/
inductive Impact
  | high
  | medium
  | low
deriving DecidableEq

/-- The fixed catalog of issue categories emitted by `builtin_eco_analysis`. -/
inductive IssueType
  | large_loop
  | medium_loop
  | nested_loop
  | infinite_loop_risk
  | resource_leak
  | wildcard_import
  | string_concat_loop
  | global_variable
  | repeated_call
  | long_sleep
  | print_in_loop
  | list_append_pattern
  | full_file_read
  | recursion
deriving DecidableEq

/-- One issue dictionary (the presentation-only `message` / `suggestion`
strings are not modelled). -/
structure Issue where
  line : Nat
  severity : Severity
  itype : IssueType
  co2_impact : Impact
deriving DecidableEq

def mkIssue (line : Nat) (sev : Severity) (t : IssueType) (imp : Impact) : Issue :=
  ⟨line, sev, t, imp⟩

/-- Oracle for one `ast.FunctionDef` node of `ast.parse(code)`: its name, its
`lineno`, and the callee names of all `ast.Call` nodes with an `ast.Name`
callee inside `ast.walk` of the definition, in walk order.  The analyzer's
Check 12 consumes exactly this much of the syntax tree. -/
structure PyFunctionDef where
  name : List Char
  lineno : Nat
  calls : List (List Char)

/-- Check 12 of `builtin_eco_analysis` (lines 265-284): per `ast.parse`
attempt, one info/medium recursion issue for every function definition whose
walk contains a call to its own name (the inner `break` stops after the first
matching call).  `none` models a `SyntaxError` swallowed by `except: pass`. -/
def recursionIssues (ast : Option (List PyFunctionDef)) : List Issue :=
  match ast with
  | none => []
  | some funcs =>
    funcs.filterMap fun f =>
      if f.calls.contains f.name then
        some (mkIssue f.lineno .info .recursion .medium)
      else none

/-- `while loop_stack and loop_stack[-1][1] >= indent: loop_stack.pop()`; the
stack holds `(line, indent)` pairs, head = top. -/
def popStack (indent : Nat) : List (Nat × Nat) → List (Nat × Nat)
  | [] => []
  | (l, ind) :: rest =>
    if ind ≥ indent then popStack indent rest else (l, ind) :: rest

/-- Check 1a (lines 110-131): literal single-argument `range` bound on the raw
line; `> 10000` is a warning/high large loop, `> 1000` an info/medium medium
loop. -/
def sizeIssues (i : Nat) (line : List Char) : List Issue :=
  match searchRangeOne line with
  | some n =>
    if n > 10000 then [mkIssue i .warning .large_loop .high]
    else if n > 1000 then [mkIssue i .info .medium_loop .medium]
    else []
  | none => []

def kwWith : List Char := "with ".data
def kwPlusEq : List Char := "+=".data
def kwStrTok : List Char := "str".data
def kwGlobalSpace : List Char := "global ".data
def kwTimeSleep : List Char := "time.sleep(".data
def kwSleepPar : List Char := "sleep(".data
def kwPrintPar : List Char := "print(".data
def kwAppendPar : List Char := ".append(".data
def kwForSpace : List Char := "for ".data
def kwReadCall : List Char := ".read()".data
def kwReadlinesCall : List Char := ".readlines()".data
def kwTrueUp : List Char := "True".data
def kwTrueLow : List Char := "true".data
def dquoteChar : Char := '"'
def squoteChar : Char := Char.ofNat 39

/-- Check 2's condition: `'True' in line_stripped or 'true' in line_stripped`. -/
def containsTrueLit (stripped : List Char) : Bool :=
  pyIn kwTrueUp stripped || pyIn kwTrueLow stripped

/-- Check 3 (lines 161-169): file opened by assignment without `with`. -/
def checkResourceLeak (i : Nat) (line : List Char) : List Issue :=
  if searchAssignOpen line && !pyIn kwWith line then
    [mkIssue i .warning .resource_leak .low]
  else []

/-- Check 4 (lines 172-180): wildcard import. -/
def checkWildcard (i : Nat) (stripped : List Char) : List Issue :=
  if matchWildcardImport stripped then
    [mkIssue i .warning .wildcard_import .low]
  else []

/-- Check 5 (lines 183-193): `+=` with a string-looking operand inside a loop
(the stack already contains the frame a loop-header line pushed for itself). -/
def checkStringConcat (i : Nat) (line : List Char) (stack : List (Nat × Nat)) :
    List Issue :=
  if pyIn kwPlusEq line &&
      (pyIn kwStrTok line || pyIn [dquoteChar] line || pyIn [squoteChar] line) &&
      !stack.isEmpty then
    [mkIssue i .warning .string_concat_loop .medium]
  else []

/-- Check 6 (lines 196-204): a line beginning with `global `. -/
def checkGlobal (i : Nat) (stripped : List Char) : List Issue :=
  if kwGlobalSpace.isPrefixOf stripped then
    [mkIssue i .info .global_variable .low]
  else []

/-- Check 7 (lines 207-215): repeated call expression on one line. -/
def checkRepeatedCall (i : Nat) (line : List Char) : List Issue :=
  if repeatedCallHit line then [mkIssue i .info .repeated_call .low] else []

/-- Check 8 (lines 218-230): sleep with a literal argument greater than 1. -/
def checkSleep (i : Nat) (line : List Char) : List Issue :=
  if pyIn kwTimeSleep line || pyIn kwSleepPar line then
    match searchSleep line with
    | some q => if q > 1 then [mkIssue i .info .long_sleep .low] else []
    | none => []
  else []

/-- Check 9 (lines 233-241): print inside a loop. -/
def checkPrintLoop (i : Nat) (line : List Char) (stack : List (Nat × Nat)) :
    List Issue :=
  if pyIn kwPrintPar line && !stack.isEmpty then
    [mkIssue i .info .print_in_loop .medium]
  else []

/-- Check 10 (lines 244-252): `.append(` together with `for ` on one line. -/
def checkAppend (i : Nat) (line : List Char) : List Issue :=
  if pyIn kwAppendPar line && pyIn kwForSpace line then
    [mkIssue i .info .list_append_pattern .low]
  else []

/-- Check 11 (lines 255-263): whole-file read. -/
def checkFullRead (i : Nat) (line : List Char) : List Issue :=
  if pyIn kwReadCall line || pyIn kwReadlinesCall line then
    [mkIssue i .info .full_file_read .medium]
  else []

/-- All issues contributed by one processed line (after the blank/comment
skip), together with the loop stack after this line.  The loop-header branch
(checks 1-2) runs first and pushes its frame before checks 3-12, exactly as
in the source. -/
def lineChecks (ast : Option (List PyFunctionDef)) (i : Nat)
    (line stripped : List Char) (ind : Nat) (st0 : List (Nat × Nat)) :
    List Issue × List (Nat × Nat) :=
  let headAndStack :=
    if matchForRange stripped then
      (sizeIssues i line ++
        (if st0.isEmpty then [] else [mkIssue i .error .nested_loop .high]),
       (i, ind) :: st0)
    else if matchWhile stripped then
      ((if containsTrueLit stripped then
          [mkIssue i .warning .infinite_loop_risk .high]
        else []),
       (i, ind) :: st0)
    else ([], st0)
  let st1 := headAndStack.2
  (headAndStack.1 ++
     checkResourceLeak i line ++
     checkWildcard i stripped ++
     checkStringConcat i line st1 ++
     checkGlobal i stripped ++
     checkRepeatedCall i line ++
     checkSleep i line ++
     checkPrintLoop i line st1 ++
     checkAppend i line ++
     checkFullRead i line ++
     recursionIssues ast,
   st1)

/-- The per-line loop of `builtin_eco_analysis` (lines 96-284): skip blank and
comment lines, otherwise pop the loop stack and run the checks. -/
def builtinGo (ast : Option (List PyFunctionDef)) :
    Nat → List (Nat × Nat) → List (List Char) → List Issue
  | _, _, [] => []
  | i, st, l :: ls =>
    let stripped := pyStrip l
    if stripped.isEmpty || stripped.head? = some '#' then
      builtinGo ast (i + 1) st ls
    else
      let step := lineChecks ast i l stripped (pyIndent l) (popStack (pyIndent l) st)
      step.1 ++ builtinGo ast (i + 1) step.2 ls

/-- `builtin_eco_analysis(code)` (lines 85-286).  `ast` is the oracle for
`ast.parse(code)`: `none` when parsing raises, otherwise the function
definitions in walk order. -/
def builtin_eco_analysis (ast : Option (List PyFunctionDef))
    (code : List Char) : List Issue :=
  builtinGo ast 1 [] (pySplit '\n' code)

/-- Severity deduction of `get_eco_score` (lines 304-309; the `else` branch
covers `info`). -/
def severityDeduction : Severity → Int
  | .error => 15
  | .warning => 8
  | .info => 3

/-- Impact deduction of `get_eco_score` (lines 312-315; `low` falls through). -/
def impactDeduction : Impact → Int
  | .high => 5
  | .medium => 2
  | .low => 0

/-- `get_eco_score(issues)` (lines 289-317): start at 100, subtract both
deductions per issue, clamp below at 0. -/
def get_eco_score (issues : List Issue) : Int :=
  if issues.isEmpty then 100
  else
    max 0 (issues.foldl
      (fun sc iss => sc - severityDeduction iss.severity - impactDeduction iss.co2_impact)
      100)

/-! ## The hardware-aware emissions estimator: `estimate_co2` (co2_estimator.py) -/

/-- `CO2_ESTIMATES['loop_iteration'] = 0.000001` (grams). -/
def loopIterationCO2 : ℚ := 1 / 1000000

/-- `CO2_ESTIMATES['file_operation'] = 0.00001`. -/
def fileOpCO2 : ℚ := 1 / 100000

/-- `CO2_ESTIMATES['function_call'] = 0.0000005`. -/
def functionCallCO2 : ℚ := 5 / 10000000

/-- `CO2_ESTIMATES['import'] = 0.00002`. -/
def importCO2 : ℚ := 2 / 100000

/-- `CO2_ESTIMATES['list_comprehension'] = 0.0000003`. -/
def listCompCO2 : ℚ := 3 / 10000000

/-- Breakdown-dictionary keys: `f'loop_line_{i+1}'` and `f'file_op_line_{i+1}'`
modelled with the line number as data (the two key families are disjoint and
injective in the line number, so the association list below has the same
value multiset as the Python dict). -/
inductive BKey
  | loopLine (n : Nat)
  | fileOpLine (n : Nat)
deriving DecidableEq

/-- `while indent_stack and indent_stack[-1] >= indent: indent_stack.pop()`. -/
def popIndents (indent : Nat) : List Nat → List Nat
  | [] => []
  | x :: rest => if x ≥ indent then popIndents indent rest else x :: rest

/-- `for\s+\w+\s+in\s+` anchored at the head, returning the remainder. -/
def forInChunkAt (s : List Char) : Option (List Char) :=
  do
    let s ← stripLit kwFor s
    let s ← munch1 pyIsSpace s
    let s ← munch1 isWordChar s
    let s ← munch1 pyIsSpace s
    let s ← stripLit kwIn s
    munch1 pyIsSpace s

/-- Remainder after the leftmost `for\s+\w+\s+in\s+` chunk. -/
def earliestChunkRest : List Char → Option (List Char)
  | [] => none
  | s@(_ :: t) =>
    match forInChunkAt s with
    | some r => some r
    | none => earliestChunkRest t

/-- Suffix after the last `]`. -/
def afterLastRBracket (s : List Char) : List Char :=
  (s.reverse.takeWhile (fun c => c ≠ ']')).reverse

/-- `len(re.findall(r'\[.*for\s+\w+\s+in\s+.*\]', line))`: non-overlapping
leftmost matches; a greedy match opened at a `[` swallows everything up to
the last `]` that has a for-in chunk before it.  Fuel-indexed (the fuel is
the line length; every recursive call strictly shrinks the list). -/
def listCompCountAux : Nat → List Char → Nat
  | 0, _ => 0
  | _ + 1, [] => 0
  | fuel + 1, c :: t =>
    if c = '[' then
      match earliestChunkRest t with
      | some r =>
        if r.contains ']' then 1 + listCompCountAux fuel (afterLastRBracket r)
        else listCompCountAux fuel t
      | none => listCompCountAux fuel t
    else listCompCountAux fuel t

def listCompCount (s : List Char) : Nat :=
  listCompCountAux s.length s

/-- `\w+\s*\(` anchored at the head, returning the remainder after the `(`. -/
def callTokAt (s : List Char) : Option (List Char) :=
  if (s.takeWhile isWordChar).isEmpty then none
  else
    match (s.dropWhile isWordChar).dropWhile pyIsSpace with
    | '(' :: r => some r
    | _ => none

/-- `len(re.findall(r'\w+\s*\(', line))`: non-overlapping leftmost matches. -/
def countCallTokensAux : Nat → List Char → Nat
  | 0, _ => 0
  | _ + 1, [] => 0
  | fuel + 1, s@(_ :: t) =>
    match callTokAt s with
    | some r => 1 + countCallTokensAux fuel r
    | none => countCallTokensAux fuel t

def countCallTokens (s : List Char) : Nat :=
  countCallTokensAux s.length s

/-- The alternatives of
`\b(if|for|while|with|def|class|import|from|return|print)\s*\(`, in source
order (no alternative is a prefix of another). -/
def structuralKeywords : List (List Char) :=
  ["if".data, "for".data, "while".data, "with".data, "def".data,
   "class".data, "import".data, "from".data, "return".data, "print".data]

/-- Try each keyword alternative, then `\s*\(`; returns the remainder after
the `(`. -/
def keywordCallAtGo : List (List Char) → List Char → Option (List Char)
  | [], _ => none
  | kw :: kws, s =>
    match stripLit kw s with
    | some r =>
      match r.dropWhile pyIsSpace with
      | '(' :: r2 => some r2
      | _ => keywordCallAtGo kws s
    | none => keywordCallAtGo kws s

def keywordCallAt (s : List Char) : Option (List Char) :=
  keywordCallAtGo structuralKeywords s

/-- `len(re.findall(r'\b(if|for|...|print)\s*\(', line))`: the `\b` requires
the previous character (tracked explicitly) to be a non-word character. -/
def countKeywordCallsAux : Nat → Option Char → List Char → Nat
  | 0, _, _ => 0
  | _ + 1, _, [] => 0
  | fuel + 1, prev, s@(c :: t) =>
    let boundaryOk := match prev with
      | none => true
      | some p => !isWordChar p
    if boundaryOk then
      match keywordCallAt s with
      | some r => 1 + countKeywordCallsAux fuel (some lparChar) r
      | none => countKeywordCallsAux fuel (some c) t
    else countKeywordCallsAux fuel (some c) t

def countKeywordCalls (s : List Char) : Nat :=
  countKeywordCallsAux s.length none s

def kwOpenPar : List Char := "open(".data
def kwImportSpace : List Char := "import ".data
def kwFromSpace : List Char := "from ".data
def kwNumpy : List Char := "numpy".data
def kwNp : List Char := "np".data

/-- The estimator's accumulator (lines 59-70 of co2_estimator.py). -/
structure EstState where
  total : ℚ
  breakdown : List (BKey × ℚ)
  loop_count : Nat
  nested_loops : Nat
  file_ops : Nat
  imports : Nat
  function_calls : Nat
  list_comps : Nat
  numpy_ops : Nat
  indent_stack : List Nat
deriving DecidableEq

def initEstState : EstState :=
  ⟨0, [], 0, 0, 0, 0, 0, 0, 0, []⟩

/-- For-loop counting of the estimator's line loop (lines 76-108 of
co2_estimator.py): pop the indent stack, and on a for-header bump the loop
counters, push the frame, and charge the parsed (or default 1000) iteration
count; a parsed two-argument `range(a, b)` contributes `b - a` iterations,
scaled by `2 ^ |{frames below the current indent}|`. -/
def estForPart (i : Nat) (line stripped : List Char) (indent : Nat)
    (s : EstState) : EstState :=
  let st0 := popIndents indent s.indent_stack
  if matchForIn stripped then
    let nested := if st0.isEmpty then s.nested_loops else s.nested_loops + 1
    let st1 := indent :: st0
    match searchRangeTwo line with
    | some ab =>
      let iterations : Int :=
        match ab.2 with
        | some b => (b : Int) - (ab.1 : Int)
        | none => (ab.1 : Int)
      let multiplier : ℚ := (2 : ℚ) ^ (st1.filter (fun x => x < indent)).length
      let delta : ℚ := (iterations : ℚ) * loopIterationCO2 * multiplier
      { s with loop_count := s.loop_count + 1, nested_loops := nested,
               indent_stack := st1, total := s.total + delta,
               breakdown := s.breakdown ++ [(BKey.loopLine (i + 1), delta)] }
    | none =>
      { s with loop_count := s.loop_count + 1, nested_loops := nested,
               indent_stack := st1,
               total := s.total + 1000 * loopIterationCO2,
               breakdown := s.breakdown ++
                 [(BKey.loopLine (i + 1), 1000 * loopIterationCO2)] }
  else { s with indent_stack := st0 }

/-- While-loop counting (lines 110-114): push the frame and charge the
default 5000 iterations; no breakdown entry. -/
def estWhilePart (stripped : List Char) (indent : Nat) (s : EstState) : EstState :=
  if matchWhile stripped then
    { s with loop_count := s.loop_count + 1,
             indent_stack := indent :: s.indent_stack,
             total := s.total + 5000 * loopIterationCO2 }
  else s

/-- File-operation counting (lines 116-120). -/
def estFilePart (i : Nat) (line : List Char) (s : EstState) : EstState :=
  if pyIn kwOpenPar line then
    { s with file_ops := s.file_ops + 1, total := s.total + fileOpCO2,
             breakdown := s.breakdown ++ [(BKey.fileOpLine (i + 1), fileOpCO2)] }
  else s

/-- Import counting (lines 122-129); no breakdown entry. -/
def estImportPart (line stripped : List Char) (s : EstState) : EstState :=
  if kwImportSpace.isPrefixOf stripped || kwFromSpace.isPrefixOf stripped then
    let s1 := { s with imports := s.imports + 1, total := s.total + importCO2 }
    if pyIn kwNumpy line || pyIn kwNp line then
      { s1 with numpy_ops := s1.numpy_ops + 1 }
    else s1
  else s

/-- List-comprehension counting (lines 131-135); no breakdown entry. -/
def estCompPart (line : List Char) (s : EstState) : EstState :=
  let n := listCompCount line
  if n > 0 then
    { s with list_comps := s.list_comps + n,
             total := s.total + (n : ℚ) * listCompCO2 * 100 }
  else s

/-- Function-call counting (lines 137-142): number of `\w+\s*\(` matches
minus structural-keyword matches, floored at 0; the total is charged once at
the end of the whole loop, not per line. -/
def estCallPart (line : List Char) (s : EstState) : EstState :=
  { s with function_calls := s.function_calls +
      (max 0 ((countCallTokens line : Int) - (countKeywordCalls line : Int))).toNat }

/-- One iteration of the estimator's line loop (lines 72-142); `i` is the
0-based index, breakdown keys use `i+1`. -/
def estStep (i : Nat) (line : List Char) (s : EstState) : EstState :=
  let stripped := pyStrip line
  let indent := pyIndent line
  estCallPart line
    (estCompPart line
      (estImportPart line stripped
        (estFilePart i line
          (estWhilePart stripped indent
            (estForPart i line stripped indent s)))))

def estLines : Nat → EstState → List (List Char) → EstState
  | _, s, [] => s
  | i, s, l :: ls => estLines (i + 1) (estStep i l s) ls

/-- `round(x, d)` on an exact rational (every total reachable below is an
integer multiple of `10 ^ (-d)`, so the tie-breaking convention is moot). -/
def pyRound (d : Nat) (x : ℚ) : ℚ :=
  ((round (x * 10 ^ d) : ℤ) : ℚ) / 10 ^ d

/-- The estimator's result dictionary (lines 149-165; the presentation-only
`method`, `hardware_info` and `note` entries are not modelled). -/
structure CO2Result where
  estimated_co2_grams : ℚ
  estimated_energy_kwh : ℚ
  loops : Nat
  nested_loops : Nat
  file_operations : Nat
  imports : Nat
  function_calls : Nat
  list_comprehensions : Nat
  numpy_operations : Nat
  breakdown : List (BKey × ℚ)
deriving DecidableEq

/-- `estimate_co2(code)` (lines 11-167): fold the line loop, add the
function-call contribution, convert to energy (`* 0.002`), round. -/
def estimate_co2 (code : List Char) : CO2Result :=
  let s := estLines 0 initEstState (pySplit '\n' code)
  let total := s.total + (s.function_calls : ℚ) * functionCallCO2
  let energy := total * (2 / 1000)
  ⟨pyRound 9 total, pyRound 12 energy, s.loop_count, s.nested_loops, s.file_ops,
   s.imports, s.function_calls, s.list_comps, s.numpy_ops, s.breakdown⟩

/-- Sum of the values of the breakdown map. -/
def breakdownSum (b : List (BKey × ℚ)) : ℚ :=
  (b.map Prod.snd).sum

/-! ## The simple policy: `mock_static_analysis` and `analyze_static`
(GreenCodeDemo/main.py) -/

/-- Issue categories of the mock analyzer. -/
inductive DType
  | complexity
  | algorithm
  | memory
  | pythonic
  | design
deriving DecidableEq

/-- An issue of the mock analyzer (presentation message omitted). -/
structure DIssue where
  line : Nat
  dtype : DType
  severity : Severity
deriving DecidableEq

/-- Python `l[lo:hi]` for already-clamped natural bounds. -/
def pySlice (lo hi : Nat) (l : List α) : List α :=
  (l.take hi).drop lo

def kwForIRange : List Char := "for i in range".data
def kwForJRange : List Char := "for j in range".data
def kwAj : List Char := "a[j]".data
def kwArrj : List Char := "arr[j]".data
def kwListj : List Char := "list[j]".data
def kwRangeLenPar : List Char := "range(len(".data

/-- The line loop of `mock_static_analysis` (lines 94-147 of main.py),
returning the issue list and the accumulated score deduction.  The
bubble-sort branch `break`s out of the whole loop. -/
def mockGo (codeL : List Char) (allLines : List (List Char)) :
    Nat → List (List Char) → List DIssue × ℚ
  | _, [] => ([], 0)
  | i, l :: ls =>
    let c1 : List DIssue × ℚ :=
      if pyIn kwForSpace l &&
          (pySlice (i - 5) (i - 1) allLines).any (fun p => pyIn kwForSpace p) then
        ([⟨i, .complexity, .warning⟩], 15)
      else ([], 0)
    if (pyIn kwForIRange (pyStrip (pyLower l)) && pyIn kwForJRange (pyLower codeL)) &&
        (pyIn kwAj codeL || pyIn kwArrj codeL || pyIn kwListj codeL) then
      (c1.1 ++ [⟨i, .algorithm, .error⟩], c1.2 + 20)
    else
      let c3 : List DIssue × ℚ :=
        if pyIn kwAppendPar l &&
            (pySlice (i - 3) i allLines).any (fun p => pyIn kwForSpace p) then
          ([⟨i, .memory, .info⟩], 5)
        else ([], 0)
      let c4 : List DIssue × ℚ :=
        if pyIn kwRangeLenPar l then ([⟨i, .pythonic, .info⟩], 5) else ([], 0)
      let c5 : List DIssue × ℚ :=
        if kwGlobalSpace.isPrefixOf (pyStrip l) then
          ([⟨i, .design, .warning⟩], 10)
        else ([], 0)
      let rest := mockGo codeL allLines (i + 1) ls
      (c1.1 ++ c3.1 ++ c4.1 ++ c5.1 ++ rest.1, c1.2 + c3.2 + c4.2 + c5.2 + rest.2)

structure MockResult where
  score : ℚ
  issues : List DIssue
deriving DecidableEq

/-- `mock_static_analysis(code)` (lines 85-169): run the loop, clamp the
score to `[0, 100]` (the static suggestion list is presentation only). -/
def mock_static_analysis (code : List Char) : MockResult :=
  let lines := pySplit '\n' code
  let r := mockGo code lines 1 lines
  ⟨max 0 (min 100 (100 - r.2)), r.1⟩

/-- `get_score_color(score)` (lines 75-82 of main.py). -/
def get_score_color (score : ℚ) : String × String :=
  if score ≥ 70 then ("green", if score ≥ 85 then "excellent" else "good")
  else if score ≥ 40 then ("yellow", "fair")
  else ("red", "poor")

/-- The handler's `message` field: the literal sentinel `"No code provided"`
or the f-string `"Static analysis complete. Efficiency score: {score:.1f}%"`
(modelled symbolically with the score it interpolates). -/
inductive BoundaryMessage
  | noCode
  | analysisComplete (score : ℚ)
deriving DecidableEq

/-- The `analyze_static` HTTP handler's response (lines 49-57 of main.py). -/
structure StaticAnalysisResponse where
  success : Bool
  score : ℚ
  score_label : String
  color : String
  issues : List DIssue
  message : BoundaryMessage
deriving DecidableEq

/-- `analyze_static` (lines 280-315 of main.py), on the code path where the
third-party analyzer is unavailable and `run_eco_analyzer` falls back to
`mock_static_analysis` (lines 17-23, 198-199): strip the request body, answer
the score-0 "No code provided" sentinel for an empty body, otherwise run the
analysis. -/
def analyze_static (codeRaw : List Char) : StaticAnalysisResponse :=
  let code := pyStrip codeRaw
  if code.isEmpty then ⟨false, 0, "none", "gray", [], .noCode⟩
  else
    let result := mock_static_analysis code
    let cl := get_score_color result.score
    ⟨true, pyRound 1 result.score, cl.2, cl.1, result.issues,
     .analysisComplete result.score⟩

/-! ## Spec-side definitions (written from the claims' words, for comparison
with the embedded code) -/

/-- The per-issue deduction exactly as claim C2 words it: severity penalty
(error 15, warning 8, info 3) plus impact penalty (high 5, medium 2, low 0). -/
def claimPenalty (iss : Issue) : Int :=
  (match iss.severity with
   | .error => 15
   | .warning => 8
   | .info => 3) +
  (match iss.co2_impact with
   | .high => 5
   | .medium => 2
   | .low => 0)

/-- Spec-side nested-loop detector for the amended claim C5: walking the
lines with the indentation stack (for-range and while headers push frames,
frames at indent ≥ the current line's pop), emit one error/high issue for
every for-range header that still has an enclosing frame. -/
def nestedSpecGo : Nat → List (Nat × Nat) → List (List Char) → List Issue
  | _, _, [] => []
  | i, st, l :: ls =>
    let stripped := pyStrip l
    if stripped.isEmpty || stripped.head? = some '#' then
      nestedSpecGo (i + 1) st ls
    else
      let ind := pyIndent l
      let st0 := popStack ind st
      if matchForRange stripped then
        (if st0.isEmpty then [] else [mkIssue i .error .nested_loop .high]) ++
          nestedSpecGo (i + 1) ((i, ind) :: st0) ls
      else if matchWhile stripped then
        nestedSpecGo (i + 1) ((i, ind) :: st0) ls
      else
        nestedSpecGo (i + 1) st0 ls

def nestedLoopSpec (code : List Char) : List Issue :=
  nestedSpecGo 1 [] (pySplit '\n' code)

/-- The loop stack left after a list of lines, mirroring the analyzer's stack
updates (used to speak about nesting depth independently). -/
def stackAfterLines : Nat → List (Nat × Nat) → List (List Char) → List (Nat × Nat)
  | _, st, [] => st
  | i, st, l :: ls =>
    let stripped := pyStrip l
    if stripped.isEmpty || stripped.head? = some '#' then
      stackAfterLines (i + 1) st ls
    else
      let st0 := popStack (pyIndent l) st
      if matchForRange stripped || matchWhile stripped then
        stackAfterLines (i + 1) ((i, pyIndent l) :: st0) ls
      else
        stackAfterLines (i + 1) st0 ls

/-- Nesting depth of line `i` (1-based): unclosed enclosing loop frames at
strictly smaller indent when line `i` is reached. -/
def nestingDepthAt (code : List Char) (i : Nat) : Nat :=
  let lines := pySplit '\n' code
  match lines[i - 1]? with
  | some l => (popStack (pyIndent l) (stackAfterLines 1 [] (lines.take (i - 1)))).length
  | none => 0

/-- Claim C8's right-hand side: line `i` of the snippet exists, is a
while-loop header, and its text contains a `True`/`true` literal. -/
def whileTrueHeaderAt (code : List Char) (i : Nat) : Prop :=
  ∃ j l, (pySplit '\n' code)[j]? = some l ∧ i = j + 1 ∧
    matchWhile (pyStrip l) = true ∧ containsTrueLit (pyStrip l) = true

/-- Boolean test for an issue's category. -/
def hasType (t : IssueType) (iss : Issue) : Bool :=
  decide (iss.itype = t)

/-- Boolean test for a mock issue's category. -/
def hasDType (t : DType) (iss : DIssue) : Bool :=
  decide (iss.dtype = t)

/-- Spec-side infinite-loop detector for claim C8: one warning/high issue per
line that is a while-header containing a `True`/`true` literal (blank and
comment lines cannot be while-headers, so no skip is needed). -/
def infSpecGo : Nat → List (List Char) → List Issue
  | _, [] => []
  | i, l :: ls =>
    (if matchWhile (pyStrip l) && containsTrueLit (pyStrip l) then
       [mkIssue i .warning .infinite_loop_risk .high]
     else []) ++ infSpecGo (i + 1) ls

/-- A line's two-argument `range` literal, when parsed, is nondecreasing
(`range(a, b)` with `a ≤ b`); the hypothesis of the amended claim C4. -/
def rangeOkB (l : List Char) : Bool :=
  match searchRangeTwo l with
  | some (a, some b) => a ≤ b
  | _ => true

/-- Estimator invariant for claims C3/C4: the breakdown values never exceed
the running total, and the total is an integer multiple of 10^-9 (so the
9-digit rounding of the final total is exact). -/
def EstInv (s : EstState) : Prop :=
  breakdownSum s.breakdown ≤ s.total ∧ ∃ n : ℤ, s.total = (n : ℚ) / 10 ^ 9

/-- Snippet for claim C1: a two-line recursive function. -/
def c1Snippet : List Char := ("def f():\n    return f()").data

/-- `ast.parse` oracle for `c1Snippet`: one function definition `f` at line 1
whose body calls `f`. -/
def c1Ast : Option (List PyFunctionDef) :=
  some [⟨"f".data, 1, ["f".data]⟩]

/-- Counterexample input for claim C5: a while-loop header nested inside a
for-range loop. -/
def c5CounterInput : List Char := ("for i in range(5):\n    while x > 0:").data

/-- Line 2 of `c5CounterInput`. -/
def c5CounterLine2 : List Char := ("    while x > 0:").data

/-- The spec's nesting scenario: for-range loops at indents 0, 4 and 8. -/
def c5Scenario : List Char :=
  ("for i in range(2):\n    for j in range(2):\n        for k in range(2):\n            x = 1").data

/-- The spec's large-loop scenario for claim C6. -/
def c6Scenario : List Char := ("for i in range(20000):\n    x = i*2").data

/-- Line 1 of `c6Scenario`. -/
def c6ScenarioLine1 : List Char := ("for i in range(20000):").data

/-- Counterexample input for claim C3: an import contributes to the total but
not to the breakdown. -/
def c3CounterInput : List Char := ("import os").data

/-- Counterexample input for claim C4: `range(9, 1)` parses to the negative
iteration count 1 - 9 = -8. -/
def c4CounterInput : List Char := ("for i in range(9, 1):").data

/-- Witness input for the amended claim C4. -/
def c4WitnessInput : List Char := ("for i in range(10):").data

/-- A for-loop whose iterable is not a literal `range` (claim C9). -/
def c9ForLine : List Char := ("for x in items:").data

/-- A while-loop header (claim C9). -/
def c9WhileLine : List Char := ("while True:").data

/-- A bubble-sort snippet on which the mock analyzer's bubble-sort branch
fires (claim C10). -/
def c10Bubble : List Char :=
  ("for i in range(n):\n    for j in range(n):\n        if a[j] > a[j+1]:\n            a[j], a[j+1] = a[j+1], a[j]\nglobal z").data

/-- `x` is an integer multiple of 10^-9 (every per-operation constant of the
estimator is, so the 9-digit rounding of the final total is exact). -/
def Mult9 (x : ℚ) : Prop :=
  ∃ n : ℤ, x = (n : ℚ) / 10 ^ 9

/-! ## Helper lemmas -/

theorem claimPenalty_eq (iss : Issue) :
    claimPenalty iss = severityDeduction iss.severity + impactDeduction iss.co2_impact := by
  rcases iss with ⟨l, sev, t, imp⟩
  cases sev <;> cases imp <;> rfl

theorem claimPenalty_nonneg (iss : Issue) : 0 ≤ claimPenalty iss := by
  rcases iss with ⟨l, sev, t, imp⟩
  cases sev <;> cases imp <;> simp [claimPenalty]

theorem sum_claimPenalty_nonneg (l : List Issue) : 0 ≤ (l.map claimPenalty).sum := by
  induction l with
  | nil => simp
  | cons h t ih =>
    simp only [List.map_cons, List.sum_cons]
    have := claimPenalty_nonneg h
    linarith

theorem eco_foldl (l : List Issue) (a : Int) :
    l.foldl
      (fun sc iss => sc - severityDeduction iss.severity - impactDeduction iss.co2_impact)
      a = a - (l.map claimPenalty).sum := by
  induction l generalizing a with
  | nil => simp
  | cons h t ih =>
    simp only [List.foldl_cons, List.map_cons, List.sum_cons, ih, claimPenalty_eq]
    ring

/-! ## Claim theorems (first group) -/

/-- C2: for every Issue list, the full scoring policy `get_eco_score` returns
exactly `max 0 (100 - Σ penalties)` with the claim's per-issue penalty
(severity error 15 / warning 8 / info 3, plus impact high 5 / medium 2 /
low 0), and the result always lies in [0, 100]. -/
theorem get_eco_score_spec (issues : List Issue) :
    get_eco_score issues = max 0 (100 - (issues.map claimPenalty).sum) ∧
    0 ≤ get_eco_score issues ∧ get_eco_score issues ≤ 100 := by
  have hmain : get_eco_score issues = max 0 (100 - (issues.map claimPenalty).sum) := by
    unfold get_eco_score
    by_cases h : issues.isEmpty
    · rw [if_pos h]
      rw [List.isEmpty_iff] at h
      subst h
      simp
    · rw [if_neg h, eco_foldl]
  refine ⟨hmain, ?_, ?_⟩
  · rw [hmain]; exact le_max_left 0 _
  · rw [hmain]
    have hs := sum_claimPenalty_nonneg issues
    have h1 : (100 : Int) - (issues.map claimPenalty).sum ≤ 100 := by linarith
    exact max_le (by decide) h1

/-- C7: the empty-string input gives the full analyzer an empty Issue list
and score 100; the score-0 "No code provided" sentinel appears only in the
`analyze_static` boundary handler. -/
theorem empty_input_analysis :
    builtin_eco_analysis (some []) [] = [] ∧
    get_eco_score (builtin_eco_analysis (some []) []) = 100 ∧
    analyze_static [] =
      { success := false, score := 0, score_label := "none", color := "gray",
        issues := [], message := .noCode } :=
  ⟨rfl, rfl, rfl⟩

/-- C1 (evidence for the code bug): on the two-line recursive snippet
`def f():\n    return f()` the full analyzer emits the recursion Issue for
`f` twice — once for every processed line, because Check 12 re-parses the
whole snippet inside the per-line loop — where the claim (and spec section
4.4) demand exactly one Issue per recursive function. -/
theorem recursion_issue_duplicated :
    builtin_eco_analysis c1Ast c1Snippet =
      [mkIssue 1 .info .recursion .medium, mkIssue 1 .info .recursion .medium] := by
  decide

theorem mem_pair_ite_singleton {c : Prop} [Decidable c] {x : DIssue} {d d' : ℚ}
    {iss : DIssue} (h : iss ∈ (if c then ([x], d) else ([], d')).1) : iss = x := by
  split at h <;> simp_all

theorem mockGo_line_lb (codeL : List Char) (allLines : List (List Char)) :
    ∀ ls i iss, iss ∈ (mockGo codeL allLines i ls).1 → i ≤ iss.line := by
  intro ls
  induction ls with
  | nil => intro i iss h; simp [mockGo] at h
  | cons l ls ih =>
    intro i iss h
    simp only [mockGo] at h
    split at h
    · simp only [List.mem_append] at h
      rcases h with h1 | h2
      · rw [mem_pair_ite_singleton h1]
      · rw [List.mem_singleton.1 h2]
    · simp only [List.mem_append] at h
      rcases h with (((h1 | h3) | h4) | h5) | h6
      · rw [mem_pair_ite_singleton h1]
      · rw [mem_pair_ite_singleton h3]
      · rw [mem_pair_ite_singleton h4]
      · rw [mem_pair_ite_singleton h5]
      · exact le_trans (Nat.le_succ i) (ih (i + 1) iss h6)

theorem filter_alg_pair_ite {c : Prop} [Decidable c] {ln : Nat} {sv : Severity}
    {d d' : ℚ} (dt : DType) (hdt : ¬dt = DType.algorithm) :
    ((if c then ([(⟨ln, dt, sv⟩ : DIssue)], d) else ([], d')).1).filter
      (hasDType .algorithm) = [] := by
  split <;> simp [hasDType, hdt]

theorem mockGo_alg_count (codeL : List Char) (allLines : List (List Char)) :
    ∀ ls i, (((mockGo codeL allLines i ls).1).filter (hasDType .algorithm)).length ≤ 1 := by
  intro ls
  induction ls with
  | nil => intro i; simp [mockGo]
  | cons l ls ih =>
    intro i
    simp only [mockGo]
    split
    · rw [List.filter_append, filter_alg_pair_ite DType.complexity (by decide)]
      simp [hasDType]
    · rw [List.filter_append, List.filter_append, List.filter_append, List.filter_append,
        filter_alg_pair_ite DType.complexity (by decide),
        filter_alg_pair_ite DType.memory (by decide),
        filter_alg_pair_ite DType.pythonic (by decide),
        filter_alg_pair_ite DType.design (by decide)]
      simpa using ih (i + 1)

theorem mockGo_alg_last (codeL : List Char) (allLines : List (List Char)) :
    ∀ ls i iss1, iss1 ∈ (mockGo codeL allLines i ls).1 →
      iss1.dtype = DType.algorithm →
      ∀ iss2 ∈ (mockGo codeL allLines i ls).1, iss2.line ≤ iss1.line := by
  intro ls
  induction ls with
  | nil => intro i iss1 h1; simp [mockGo] at h1
  | cons l ls ih =>
    intro i iss1 h1 halg iss2 h2
    simp only [mockGo] at h1 h2
    split at h1
    case isTrue hB =>
      rw [if_pos hB] at h2
      have e1 : iss1.line = i := by
        rcases List.mem_append.1 h1 with hx | hx
        · rw [mem_pair_ite_singleton hx]
        · rw [List.mem_singleton.1 hx]
      have e2 : iss2.line = i := by
        rcases List.mem_append.1 h2 with hx | hx
        · rw [mem_pair_ite_singleton hx]
        · rw [List.mem_singleton.1 hx]
      rw [e1, e2]
    case isFalse hB =>
      rw [if_neg hB] at h2
      simp only [List.mem_append] at h1 h2
      have h1' : iss1 ∈ (mockGo codeL allLines (i + 1) ls).1 := by
        rcases h1 with (((hx | hx) | hx) | hx) | hx
        · rw [mem_pair_ite_singleton hx] at halg; simp at halg
        · rw [mem_pair_ite_singleton hx] at halg; simp at halg
        · rw [mem_pair_ite_singleton hx] at halg; simp at halg
        · rw [mem_pair_ite_singleton hx] at halg; simp at halg
        · exact hx
      have hlb := mockGo_line_lb codeL allLines ls (i + 1) iss1 h1'
      rcases h2 with (((hx | hx) | hx) | hx) | hx
      · have : iss2.line = i := by rw [mem_pair_ite_singleton hx]
        omega
      · have : iss2.line = i := by rw [mem_pair_ite_singleton hx]
        omega
      · have : iss2.line = i := by rw [mem_pair_ite_singleton hx]
        omega
      · have : iss2.line = i := by rw [mem_pair_ite_singleton hx]
        omega
      · exact ih (i + 1) iss1 h1' halg iss2 hx

/-- C10: under the simple scoring policy, once the bubble-sort branch fires
the whole line loop stops: at most one bubble-sort ("algorithm") Issue and
20-point deduction per snippet, and every Issue in the result lies on a line
at or before the line on which it fired. -/
theorem mock_bubble_break (code : List Char) :
    (((mock_static_analysis code).issues).filter (hasDType .algorithm)).length ≤ 1 ∧
    ∀ iss1 ∈ (mock_static_analysis code).issues, iss1.dtype = DType.algorithm →
      ∀ iss2 ∈ (mock_static_analysis code).issues, iss2.line ≤ iss1.line := by
  constructor
  · exact mockGo_alg_count code (pySplit '\n' code) (pySplit '\n' code) 1
  · intro iss1 h1 halg iss2 h2
    exact mockGo_alg_last code (pySplit '\n' code) (pySplit '\n' code) 1 iss1 h1 halg iss2 h2

/-- Witness for C10 on a concrete bubble-sort snippet: the bubble branch
fires on line 1 and every emitted Issue lies at line ≤ 1. -/
theorem mock_bubble_break_witness :
    (⟨1, DType.algorithm, Severity.error⟩ : DIssue) ∈ (mock_static_analysis c10Bubble).issues ∧
    (⟨1, DType.algorithm, Severity.error⟩ : DIssue).line ≤ 1 :=
  ⟨by decide,
   (mock_bubble_break c10Bubble).2 ⟨1, DType.algorithm, Severity.error⟩ (by decide) rfl
     ⟨1, DType.algorithm, Severity.error⟩ (by decide)⟩

theorem stripLit_eq {p s r : List Char} (h : stripLit p s = some r) : s = p ++ r := by
  induction p generalizing s with
  | nil =>
    simp only [stripLit, Option.some.injEq] at h
    simp [h]
  | cons c cs ih =>
    cases s with
    | nil => simp [stripLit] at h
    | cons d ds =>
      simp only [stripLit] at h
      split at h
      · rename_i hcd
        rw [List.cons_append, ← hcd, ih h]
      · exact absurd h (by simp)

theorem matchForRange_head {s : List Char} (h : matchForRange s = true) :
    ∃ r, s = 'f' :: 'o' :: 'r' :: r := by
  unfold matchForRange at h
  cases hx : stripLit kwFor s with
  | none => rw [hx] at h; simp at h
  | some r1 =>
    refine ⟨r1, ?_⟩
    rw [stripLit_eq hx]
    rfl

theorem matchForIn_head {s : List Char} (h : matchForIn s = true) :
    ∃ r, s = 'f' :: 'o' :: 'r' :: r := by
  unfold matchForIn at h
  cases hx : stripLit kwFor s with
  | none => rw [hx] at h; simp at h
  | some r1 =>
    refine ⟨r1, ?_⟩
    rw [stripLit_eq hx]
    rfl

theorem matchWhile_head {s : List Char} (h : matchWhile s = true) :
    ∃ r, s = 'w' :: r := by
  unfold matchWhile at h
  cases hx : stripLit kwWhile s with
  | none => rw [hx] at h; simp at h
  | some r1 =>
    refine ⟨'h' :: 'i' :: 'l' :: 'e' :: r1, ?_⟩
    rw [stripLit_eq hx]
    rfl

theorem matchForRange_not_while {s : List Char} (h : matchForRange s = true) :
    matchWhile s = false := by
  obtain ⟨r, rfl⟩ := matchForRange_head h
  rfl

theorem matchForIn_not_while {s : List Char} (h : matchForIn s = true) :
    matchWhile s = false := by
  obtain ⟨r, rfl⟩ := matchForIn_head h
  rfl

theorem matchWhile_not_forRange {s : List Char} (h : matchWhile s = true) :
    matchForRange s = false := by
  obtain ⟨r, rfl⟩ := matchWhile_head h
  rfl

theorem matchWhile_not_forIn {s : List Char} (h : matchWhile s = true) :
    matchForIn s = false := by
  obtain ⟨r, rfl⟩ := matchWhile_head h
  rfl

theorem skip_false_of_forRange {l : List Char} (h : matchForRange (pyStrip l) = true) :
    ((pyStrip l).isEmpty || decide ((pyStrip l).head? = some '#')) = false := by
  obtain ⟨r, hr⟩ := matchForRange_head h
  rw [hr]
  rfl

theorem matchWhile_skip_false {s : List Char}
    (h : (s.isEmpty || decide (s.head? = some '#')) = true) : matchWhile s = false := by
  have h' : s.isEmpty = true ∨ s.head? = some '#' := by simpa using h
  rcases h' with h1 | h1
  · rw [List.isEmpty_iff.1 h1]
    rfl
  · cases s with
    | nil => rfl
    | cons c r =>
      have : c = '#' := by simpa using h1
      subst this
      rfl

theorem filter_ite_singleton_ne {c : Prop} [Decidable c] {i : Nat} {sev : Severity}
    {imp : Impact} {t' t : IssueType} (h : t' ≠ t) :
    (if c then [mkIssue i sev t' imp] else []).filter (hasType t) = [] := by
  split <;> simp [hasType, mkIssue, h]

theorem filter_sizeIssues {i : Nat} {line : List Char} {t : IssueType}
    (h1 : IssueType.large_loop ≠ t) (h2 : IssueType.medium_loop ≠ t) :
    (sizeIssues i line).filter (hasType t) = [] := by
  cases hsr : searchRangeOne line with
  | none => simp [sizeIssues, hsr]
  | some n =>
    simp only [sizeIssues, hsr]
    split
    · simp [hasType, mkIssue, h1]
    · split
      · simp [hasType, mkIssue, h2]
      · rfl

theorem filter_checkSleep {i : Nat} {line : List Char} {t : IssueType}
    (h : IssueType.long_sleep ≠ t) :
    (checkSleep i line).filter (hasType t) = [] := by
  unfold checkSleep
  split
  · rcases searchSleep line with _ | q
    · rfl
    · exact filter_ite_singleton_ne h
  · rfl

theorem filter_recursionIssues {t : IssueType} (h : IssueType.recursion ≠ t)
    (ast : Option (List PyFunctionDef)) :
    (recursionIssues ast).filter (hasType t) = [] := by
  rcases ast with _ | funcs
  · rfl
  · rw [List.filter_eq_nil_iff]
    intro iss hmem
    rcases List.mem_filterMap.1 hmem with ⟨f, _, hsome⟩
    split at hsome
    · obtain rfl := Option.some.inj hsome
      simp [hasType, mkIssue, h]
    · exact absurd hsome (by simp)

theorem filter_checkResourceLeak {i : Nat} {line : List Char} {t : IssueType}
    (h : IssueType.resource_leak ≠ t) :
    (checkResourceLeak i line).filter (hasType t) = [] :=
  filter_ite_singleton_ne h

theorem filter_checkWildcard {i : Nat} {stripped : List Char} {t : IssueType}
    (h : IssueType.wildcard_import ≠ t) :
    (checkWildcard i stripped).filter (hasType t) = [] :=
  filter_ite_singleton_ne h

theorem filter_checkStringConcat {i : Nat} {line : List Char}
    {st : List (Nat × Nat)} {t : IssueType} (h : IssueType.string_concat_loop ≠ t) :
    (checkStringConcat i line st).filter (hasType t) = [] :=
  filter_ite_singleton_ne h

theorem filter_checkGlobal {i : Nat} {stripped : List Char} {t : IssueType}
    (h : IssueType.global_variable ≠ t) :
    (checkGlobal i stripped).filter (hasType t) = [] :=
  filter_ite_singleton_ne h

theorem filter_checkRepeatedCall {i : Nat} {line : List Char} {t : IssueType}
    (h : IssueType.repeated_call ≠ t) :
    (checkRepeatedCall i line).filter (hasType t) = [] :=
  filter_ite_singleton_ne h

theorem filter_checkPrintLoop {i : Nat} {line : List Char}
    {st : List (Nat × Nat)} {t : IssueType} (h : IssueType.print_in_loop ≠ t) :
    (checkPrintLoop i line st).filter (hasType t) = [] :=
  filter_ite_singleton_ne h

theorem filter_checkAppend {i : Nat} {line : List Char} {t : IssueType}
    (h : IssueType.list_append_pattern ≠ t) :
    (checkAppend i line).filter (hasType t) = [] :=
  filter_ite_singleton_ne h

theorem filter_checkFullRead {i : Nat} {line : List Char} {t : IssueType}
    (h : IssueType.full_file_read ≠ t) :
    (checkFullRead i line).filter (hasType t) = [] :=
  filter_ite_singleton_ne h

theorem filter_otherChecks {t : IssueType} (ast : Option (List PyFunctionDef))
    (i : Nat) (line stripped : List Char) (st1 : List (Nat × Nat))
    (h3 : IssueType.resource_leak ≠ t) (h4 : IssueType.wildcard_import ≠ t)
    (h5 : IssueType.string_concat_loop ≠ t) (h6 : IssueType.global_variable ≠ t)
    (h7 : IssueType.repeated_call ≠ t) (h8 : IssueType.long_sleep ≠ t)
    (h9 : IssueType.print_in_loop ≠ t) (h10 : IssueType.list_append_pattern ≠ t)
    (h11 : IssueType.full_file_read ≠ t) (h12 : IssueType.recursion ≠ t) :
    (checkResourceLeak i line ++ checkWildcard i stripped ++
      checkStringConcat i line st1 ++ checkGlobal i stripped ++
      checkRepeatedCall i line ++ checkSleep i line ++
      checkPrintLoop i line st1 ++ checkAppend i line ++
      checkFullRead i line ++ recursionIssues ast).filter (hasType t) = [] := by
  simp only [List.filter_append, filter_checkResourceLeak h3, filter_checkWildcard h4,
    filter_checkStringConcat h5, filter_checkGlobal h6, filter_checkRepeatedCall h7,
    filter_checkSleep h8, filter_checkPrintLoop h9, filter_checkAppend h10,
    filter_checkFullRead h11, filter_recursionIssues h12, List.append_nil, List.nil_append]

theorem lineChecks_filter_nested (ast : Option (List PyFunctionDef)) (i : Nat)
    (line stripped : List Char) (ind : Nat) (st0 : List (Nat × Nat)) :
    (lineChecks ast i line stripped ind st0).1.filter (hasType .nested_loop) =
      if matchForRange stripped = true then
        (if st0.isEmpty = true then [] else [mkIssue i .error .nested_loop .high])
      else [] := by
  simp only [lineChecks]
  cases hfr : matchForRange stripped with
  | true =>
    simp only [eq_self_iff_true, if_true, List.filter_append, List.append_assoc]
    rw [filter_sizeIssues (by decide) (by decide),
      filter_checkResourceLeak (by decide), filter_checkWildcard (by decide),
      filter_checkStringConcat (by decide), filter_checkGlobal (by decide),
      filter_checkRepeatedCall (by decide), filter_checkSleep (by decide),
      filter_checkPrintLoop (by decide), filter_checkAppend (by decide),
      filter_checkFullRead (by decide), filter_recursionIssues (by decide)]
    split <;> simp [hasType, mkIssue]
  | false =>
    cases hw : matchWhile stripped with
    | true =>
      simp only [Bool.false_eq_true, if_false, eq_self_iff_true, if_true,
        List.filter_append, List.append_assoc]
      rw [filter_ite_singleton_ne (by decide),
        filter_checkResourceLeak (by decide), filter_checkWildcard (by decide),
        filter_checkStringConcat (by decide), filter_checkGlobal (by decide),
        filter_checkRepeatedCall (by decide), filter_checkSleep (by decide),
        filter_checkPrintLoop (by decide), filter_checkAppend (by decide),
        filter_checkFullRead (by decide), filter_recursionIssues (by decide)]
      simp
    | false =>
      simp only [Bool.false_eq_true, if_false, List.filter_append, List.append_assoc]
      rw [filter_checkResourceLeak (by decide), filter_checkWildcard (by decide),
        filter_checkStringConcat (by decide), filter_checkGlobal (by decide),
        filter_checkRepeatedCall (by decide), filter_checkSleep (by decide),
        filter_checkPrintLoop (by decide), filter_checkAppend (by decide),
        filter_checkFullRead (by decide), filter_recursionIssues (by decide)]
      simp

theorem filter_ite_nil_singleton_ne {c : Prop} [Decidable c] {i : Nat} {sev : Severity}
    {imp : Impact} {t' t : IssueType} (h : t' ≠ t) :
    (if c then [] else [mkIssue i sev t' imp]).filter (hasType t) = [] := by
  split <;> simp [hasType, mkIssue, h]

theorem lineChecks_filter_inf (ast : Option (List PyFunctionDef)) (i : Nat)
    (line stripped : List Char) (ind : Nat) (st0 : List (Nat × Nat)) :
    (lineChecks ast i line stripped ind st0).1.filter (hasType .infinite_loop_risk) =
      if matchWhile stripped = true && containsTrueLit stripped = true then
        [mkIssue i .warning .infinite_loop_risk .high]
      else [] := by
  simp only [lineChecks]
  cases hfr : matchForRange stripped with
  | true =>
    rw [matchForRange_not_while hfr]
    simp only [eq_self_iff_true, if_true, Bool.false_eq_true, decide_False,
      Bool.false_and, if_false, List.filter_append, List.append_assoc]
    rw [filter_sizeIssues (by decide) (by decide),
      filter_ite_nil_singleton_ne (by decide),
      filter_checkResourceLeak (by decide), filter_checkWildcard (by decide),
      filter_checkStringConcat (by decide), filter_checkGlobal (by decide),
      filter_checkRepeatedCall (by decide), filter_checkSleep (by decide),
      filter_checkPrintLoop (by decide), filter_checkAppend (by decide),
      filter_checkFullRead (by decide), filter_recursionIssues (by decide)]
    simp
  | false =>
    cases hw : matchWhile stripped with
    | true =>
      simp only [Bool.false_eq_true, if_false, eq_self_iff_true, if_true,
        decide_True, Bool.true_and, List.filter_append, List.append_assoc]
      rw [filter_checkResourceLeak (by decide), filter_checkWildcard (by decide),
        filter_checkStringConcat (by decide), filter_checkGlobal (by decide),
        filter_checkRepeatedCall (by decide), filter_checkSleep (by decide),
        filter_checkPrintLoop (by decide), filter_checkAppend (by decide),
        filter_checkFullRead (by decide), filter_recursionIssues (by decide)]
      cases hc : containsTrueLit stripped with
      | true => simp [hasType, mkIssue]
      | false => simp
    | false =>
      simp only [Bool.false_eq_true, if_false, Bool.false_and,
        List.filter_append, List.append_assoc]
      rw [filter_checkResourceLeak (by decide), filter_checkWildcard (by decide),
        filter_checkStringConcat (by decide), filter_checkGlobal (by decide),
        filter_checkRepeatedCall (by decide), filter_checkSleep (by decide),
        filter_checkPrintLoop (by decide), filter_checkAppend (by decide),
        filter_checkFullRead (by decide), filter_recursionIssues (by decide)]
      simp

theorem lineChecks_snd (ast : Option (List PyFunctionDef)) (i : Nat)
    (line stripped : List Char) (ind : Nat) (st0 : List (Nat × Nat)) :
    (lineChecks ast i line stripped ind st0).2 =
      if matchForRange stripped = true then (i, ind) :: st0
      else if matchWhile stripped = true then (i, ind) :: st0
      else st0 := by
  simp only [lineChecks]
  cases matchForRange stripped <;> cases matchWhile stripped <;> simp

theorem builtinGo_filter_nested (ast : Option (List PyFunctionDef)) :
    ∀ (ls : List (List Char)) (i : Nat) (st : List (Nat × Nat)),
      (builtinGo ast i st ls).filter (hasType .nested_loop) = nestedSpecGo i st ls := by
  intro ls
  induction ls with
  | nil => intro i st; simp [builtinGo, nestedSpecGo]
  | cons l ls ih =>
    intro i st
    simp only [builtinGo, nestedSpecGo]
    by_cases hskip : ((pyStrip l).isEmpty || decide ((pyStrip l).head? = some '#')) = true
    · rw [if_pos hskip, if_pos hskip]
      exact ih (i + 1) st
    · rw [if_neg hskip, if_neg hskip, List.filter_append, lineChecks_filter_nested,
        ih (i + 1) _, lineChecks_snd]
      cases hfr : matchForRange (pyStrip l) with
      | true => simp
      | false =>
        cases hw : matchWhile (pyStrip l) with
        | true => simp
        | false => simp

theorem builtinGo_filter_inf (ast : Option (List PyFunctionDef)) :
    ∀ (ls : List (List Char)) (i : Nat) (st : List (Nat × Nat)),
      (builtinGo ast i st ls).filter (hasType .infinite_loop_risk) = infSpecGo i ls := by
  intro ls
  induction ls with
  | nil => intro i st; simp [builtinGo, infSpecGo]
  | cons l ls ih =>
    intro i st
    simp only [builtinGo, infSpecGo]
    by_cases hskip : ((pyStrip l).isEmpty || decide ((pyStrip l).head? = some '#')) = true
    · rw [if_pos hskip, matchWhile_skip_false hskip]
      simp only [Bool.false_and, Bool.false_eq_true, if_false, List.nil_append]
      exact ih (i + 1) st
    · rw [if_neg hskip, List.filter_append, lineChecks_filter_inf, ih (i + 1) _]
      cases hw : matchWhile (pyStrip l) <;> cases hc : containsTrueLit (pyStrip l) <;> simp

theorem mem_infSpecGo :
    ∀ (ls : List (List Char)) (k i : Nat),
      (∃ iss ∈ infSpecGo k ls, iss.line = i) ↔
      ∃ j l, ls[j]? = some l ∧ i = k + j ∧
        matchWhile (pyStrip l) = true ∧ containsTrueLit (pyStrip l) = true := by
  intro ls
  induction ls with
  | nil => intro k i; simp [infSpecGo]
  | cons l ls ih =>
    intro k i
    simp only [infSpecGo, List.mem_append]
    constructor
    · rintro ⟨iss, hmem | hmem, hline⟩
      · split at hmem
        case isTrue hc =>
          rcases List.mem_singleton.1 hmem with rfl
          obtain ⟨hw, hct⟩ : matchWhile (pyStrip l) = true ∧ containsTrueLit (pyStrip l) = true := by
            simpa using hc
          exact ⟨0, l, by simp, by simpa [mkIssue] using hline.symm, hw, hct⟩
        case isFalse => simp at hmem
      · obtain ⟨j, l', h1, h2, h3, h4⟩ := (ih (k + 1) i).1 ⟨iss, hmem, hline⟩
        exact ⟨j + 1, l', by simpa using h1, by omega, h3, h4⟩
    · rintro ⟨j, l', hget, rfl, hw, hct⟩
      cases j with
      | zero =>
        have hl : l' = l := by simpa using hget.symm
        rw [hl] at hw hct
        refine ⟨mkIssue k .warning .infinite_loop_risk .high, Or.inl ?_, by simp [mkIssue]⟩
        rw [if_pos (show (matchWhile (pyStrip l) && containsTrueLit (pyStrip l)) = true by
          simp [hw, hct])]
        simp
      | succ j' =>
        obtain ⟨iss, hmem, hline⟩ :=
          (ih (k + 1) (k + (j' + 1))).2 ⟨j', l', by simpa using hget, by omega, hw, hct⟩
        exact ⟨iss, Or.inr hmem, hline⟩

/-- C8: the full analyzer emits an infinite_loop_risk Issue (warning/high) at
line `i` if and only if line `i` is a while-loop header whose text contains a
`True`/`true` literal. -/
theorem infinite_loop_risk_iff (ast : Option (List PyFunctionDef))
    (code : List Char) (i : Nat) :
    (∃ iss ∈ builtin_eco_analysis ast code,
        iss.itype = IssueType.infinite_loop_risk ∧ iss.line = i) ↔
      whileTrueHeaderAt code i := by
  unfold builtin_eco_analysis whileTrueHeaderAt
  have hfilt := builtinGo_filter_inf ast (pySplit '\n' code) 1 []
  constructor
  · rintro ⟨iss, hmem, htype, hline⟩
    have hm : iss ∈ (builtinGo ast 1 [] (pySplit '\n' code)).filter
        (hasType .infinite_loop_risk) :=
      List.mem_filter.2 ⟨hmem, by simp [hasType, htype]⟩
    rw [hfilt] at hm
    obtain ⟨j, l, h1, h2, h3, h4⟩ := (mem_infSpecGo (pySplit '\n' code) 1 i).1 ⟨iss, hm, hline⟩
    exact ⟨j, l, h1, by omega, h3, h4⟩
  · rintro ⟨j, l, h1, h2, h3, h4⟩
    obtain ⟨iss, hmem, hline⟩ :=
      (mem_infSpecGo (pySplit '\n' code) 1 i).2 ⟨j, l, h1, by omega, h3, h4⟩
    rw [← hfilt] at hmem
    obtain ⟨hm, hp⟩ := List.mem_filter.1 hmem
    refine ⟨iss, hm, ?_, hline⟩
    simpa [hasType] using hp

/-- C5 (amended): the nested_loop Issues of the full analyzer are exactly one
error/high Issue per for-range loop header whose nesting depth is ≥ 1 — as
computed by the spec-side `nestedLoopSpec` walk — and on the spec's scenario
of three for-range loops at indents 0, 4, 8 the detector fires exactly twice,
at the two inner headers. -/
theorem nested_loop_extraction :
    (∀ (ast : Option (List PyFunctionDef)) (code : List Char),
        (builtin_eco_analysis ast code).filter (hasType .nested_loop) =
          nestedLoopSpec code) ∧
    (builtin_eco_analysis (some []) c5Scenario).filter (hasType .nested_loop) =
      [mkIssue 2 .error .nested_loop .high, mkIssue 3 .error .nested_loop .high] := by
  constructor
  · intro ast code
    exact builtinGo_filter_nested ast (pySplit '\n' code) 1 []
  · decide

/-- Counterexample to C5 as stated: in `for i in range(5):\n    while x > 0:`
line 2 is a loop header (a while-header) at nesting depth 1, yet the analyzer
emits no nested_loop Issue at all — the detector only fires for for-range
headers. -/
theorem nested_loop_counterexample :
    (pySplit '\n' c5CounterInput)[1]? = some c5CounterLine2 ∧
    matchWhile (pyStrip c5CounterLine2) = true ∧
    nestingDepthAt c5CounterInput 2 = 1 ∧
    (builtin_eco_analysis none c5CounterInput).filter (hasType .nested_loop) = [] := by
  refine ⟨by decide, by decide, by decide, by decide⟩

theorem sizeIssues_subset_lineChecks {stripped : List Char}
    (ast : Option (List PyFunctionDef)) (i : Nat) (line : List Char) (ind : Nat)
    (st0 : List (Nat × Nat)) (h1 : matchForRange stripped = true) :
    ∀ iss ∈ sizeIssues i line, iss ∈ (lineChecks ast i line stripped ind st0).1 := by
  intro iss hiss
  simp only [lineChecks, h1, if_true, eq_self_iff_true]
  simp [List.mem_append, hiss]

theorem sizeIssues_mem_builtinGo (ast : Option (List PyFunctionDef)) :
    ∀ (ls : List (List Char)) (k : Nat) (st : List (Nat × Nat)) (j : Nat) (l : List Char),
      ls[j]? = some l → matchForRange (pyStrip l) = true →
      ∀ iss ∈ sizeIssues (k + j) l, iss ∈ builtinGo ast k st ls := by
  intro ls
  induction ls with
  | nil => intro k st j l h; simp at h
  | cons l0 ls ih =>
    intro k st j l hget hfr iss hiss
    cases j with
    | zero =>
      obtain rfl : l = l0 := by simpa using hget.symm
      simp only [builtinGo]
      rw [if_neg (by rw [skip_false_of_forRange hfr]; simp)]
      refine List.mem_append_left _ ?_
      refine sizeIssues_subset_lineChecks ast k l (pyIndent l) (popStack (pyIndent l) st) hfr iss ?_
      simpa using hiss
    | succ j' =>
      simp only [List.getElem?_cons_succ] at hget
      have hiss' : iss ∈ sizeIssues ((k + 1) + j') l := by
        have : k + (j' + 1) = (k + 1) + j' := by omega
        rwa [this] at hiss
      simp only [builtinGo]
      split
      · exact ih (k + 1) st j' l hget hfr iss hiss'
      · exact List.mem_append_right _ (ih (k + 1) _ j' l hget hfr iss hiss')

/-- C6: a for-range loop header whose literal single-argument bound parses to
`n` yields a large_loop Issue (warning/high) when `n > 10000` and a
medium_loop Issue (info/medium) when `1000 < n ≤ 10000`; in particular, on
`for i in range(20000):\n    x = i*2` the full analyzer returns exactly one
large_loop Issue, no nested_loop Issue, and score 87 with 50 < 87 < 100. -/
theorem loop_size_issues :
    (∀ (ast : Option (List PyFunctionDef)) (code : List Char) (j : Nat)
        (l : List Char) (n : Nat),
        (pySplit '\n' code)[j]? = some l →
        matchForRange (pyStrip l) = true →
        searchRangeOne l = some n →
        (10000 < n →
          mkIssue (j + 1) .warning .large_loop .high ∈ builtin_eco_analysis ast code) ∧
        (1000 < n → n ≤ 10000 →
          mkIssue (j + 1) .info .medium_loop .medium ∈ builtin_eco_analysis ast code)) ∧
    builtin_eco_analysis (some []) c6Scenario = [mkIssue 1 .warning .large_loop .high] ∧
    get_eco_score (builtin_eco_analysis (some []) c6Scenario) = 87 ∧
    50 < get_eco_score (builtin_eco_analysis (some []) c6Scenario) ∧
    get_eco_score (builtin_eco_analysis (some []) c6Scenario) < 100 := by
  refine ⟨?_, by decide, by decide, by decide, by decide⟩
  intro ast code j l n hget hfr hsr
  have hkj : (1 : Nat) + j = j + 1 := by omega
  constructor
  · intro hn
    refine sizeIssues_mem_builtinGo ast (pySplit '\n' code) 1 [] j l hget hfr _ ?_
    rw [hkj]
    simp [sizeIssues, hsr, hn]
  · intro hn1 hn2
    refine sizeIssues_mem_builtinGo ast (pySplit '\n' code) 1 [] j l hget hfr _ ?_
    rw [hkj]
    have hno : ¬10000 < n := by omega
    simp [sizeIssues, hsr, hno, hn1]

/-- Witness for C6's conditional part, instantiated on the scenario input:
line 1 parses bound 20000 > 10000 and the large_loop Issue is emitted. -/
theorem loop_size_issues_witness :
    mkIssue 1 .warning .large_loop .high ∈ builtin_eco_analysis (some []) c6Scenario :=
  (loop_size_issues.1 (some []) c6Scenario 0 c6ScenarioLine1 20000 (by decide) (by decide)
    (by decide)).1 (by decide)

theorem mult9_zero : Mult9 0 :=
  ⟨0, by norm_num⟩

theorem mult9_add {a b : ℚ} (ha : Mult9 a) (hb : Mult9 b) : Mult9 (a + b) := by
  obtain ⟨n, rfl⟩ := ha
  obtain ⟨m, rfl⟩ := hb
  exact ⟨n + m, by push_cast; ring⟩

theorem breakdownSum_append (b : List (BKey × ℚ)) (k : BKey) (v : ℚ) :
    breakdownSum (b ++ [(k, v)]) = breakdownSum b + v := by
  simp [breakdownSum]

theorem pyRound_exact {d : Nat} {x : ℚ} (h : ∃ n : ℤ, x = (n : ℚ) / 10 ^ d) :
    pyRound d x = x := by
  obtain ⟨n, rfl⟩ := h
  unfold pyRound
  rw [div_mul_cancel₀ _ (by positivity : ((10 : ℚ) ^ d) ≠ 0), round_intCast]

theorem pyRound_mult9 {x : ℚ} (h : Mult9 x) : pyRound 9 x = x :=
  pyRound_exact h

theorem pyRound_nonneg {d : Nat} {x : ℚ} (h : 0 ≤ x) : 0 ≤ pyRound d x := by
  unfold pyRound
  apply div_nonneg _ (by positivity)
  have hx : (0 : ℤ) ≤ round (x * 10 ^ d) := by
    rw [round_eq]
    apply Int.floor_nonneg.2
    have : (0 : ℚ) ≤ x * 10 ^ d := by positivity
    linarith
  exact_mod_cast hx

theorem estForPart_spec (i : Nat) (line stripped : List Char) (indent : Nat)
    (s : EstState) :
    ∃ e : ℚ, Mult9 e ∧ (rangeOkB line = true → 0 ≤ e) ∧
      (estForPart i line stripped indent s).total = s.total + e ∧
      breakdownSum (estForPart i line stripped indent s).breakdown =
        breakdownSum s.breakdown + e := by
  unfold estForPart
  split
  · cases hsr : searchRangeTwo line with
    | some ab =>
      obtain ⟨a, b⟩ := ab
      cases b with
      | some b' =>
        simp only [hsr]
        refine ⟨(((b' : Int) - (a : Int) : Int) : ℚ) * loopIterationCO2 *
          (2 : ℚ) ^ (((indent :: popIndents indent s.indent_stack).filter
            (fun x => x < indent)).length), ?_, ?_, by simp, by simp [breakdownSum_append]⟩
        · refine ⟨((b' : Int) - (a : Int)) * 1000 *
            2 ^ (((indent :: popIndents indent s.indent_stack).filter
              (fun x => x < indent)).length), ?_⟩
          unfold loopIterationCO2
          push_cast
          ring
        · intro hok
          unfold rangeOkB at hok
          rw [hsr] at hok
          have hab : a ≤ b' := by simpa using hok
          have h1 : (0 : ℚ) ≤ (((b' : Int) - (a : Int) : Int) : ℚ) := by
            push_cast
            have : (a : ℚ) ≤ (b' : ℚ) := by exact_mod_cast hab
            linarith
          unfold loopIterationCO2
          positivity
      | none =>
        simp only [hsr]
        refine ⟨((a : Int) : ℚ) * loopIterationCO2 *
          (2 : ℚ) ^ (((indent :: popIndents indent s.indent_stack).filter
            (fun x => x < indent)).length), ?_, ?_, by simp, by simp [breakdownSum_append]⟩
        · refine ⟨(a : Int) * 1000 *
            2 ^ (((indent :: popIndents indent s.indent_stack).filter
              (fun x => x < indent)).length), ?_⟩
          unfold loopIterationCO2
          push_cast
          ring
        · intro _
          unfold loopIterationCO2
          positivity
    | none =>
      simp only [hsr]
      refine ⟨1000 * loopIterationCO2, ⟨1000000, by unfold loopIterationCO2; norm_num⟩,
        fun _ => by unfold loopIterationCO2; norm_num,
        by simp, by simp [breakdownSum_append]⟩
  · exact ⟨0, mult9_zero, fun _ => le_refl 0, by simp, by simp⟩

theorem estWhilePart_spec (stripped : List Char) (indent : Nat) (s : EstState) :
    ∃ e : ℚ, Mult9 e ∧ 0 ≤ e ∧
      (estWhilePart stripped indent s).total = s.total + e ∧
      (estWhilePart stripped indent s).breakdown = s.breakdown := by
  unfold estWhilePart
  split
  · exact ⟨5000 * loopIterationCO2, ⟨5000000, by unfold loopIterationCO2; norm_num⟩,
      by unfold loopIterationCO2; norm_num, by simp, rfl⟩
  · exact ⟨0, mult9_zero, le_refl 0, by simp, rfl⟩

theorem estFilePart_spec (i : Nat) (line : List Char) (s : EstState) :
    ∃ e : ℚ, Mult9 e ∧ 0 ≤ e ∧
      (estFilePart i line s).total = s.total + e ∧
      breakdownSum (estFilePart i line s).breakdown = breakdownSum s.breakdown + e := by
  unfold estFilePart
  split
  · exact ⟨fileOpCO2, ⟨10000, by unfold fileOpCO2; norm_num⟩,
      by unfold fileOpCO2; norm_num, by simp, by simp [breakdownSum_append]⟩
  · exact ⟨0, mult9_zero, le_refl 0, by simp, by simp⟩

theorem estImportPart_spec (line stripped : List Char) (s : EstState) :
    ∃ e : ℚ, Mult9 e ∧ 0 ≤ e ∧
      (estImportPart line stripped s).total = s.total + e ∧
      (estImportPart line stripped s).breakdown = s.breakdown := by
  unfold estImportPart
  split
  · split
    · exact ⟨importCO2, ⟨20000, by unfold importCO2; norm_num⟩,
        by unfold importCO2; norm_num, by simp, rfl⟩
    · exact ⟨importCO2, ⟨20000, by unfold importCO2; norm_num⟩,
        by unfold importCO2; norm_num, by simp, rfl⟩
  · exact ⟨0, mult9_zero, le_refl 0, by simp, rfl⟩

theorem estCompPart_spec (line : List Char) (s : EstState) :
    ∃ e : ℚ, Mult9 e ∧ 0 ≤ e ∧
      (estCompPart line s).total = s.total + e ∧
      (estCompPart line s).breakdown = s.breakdown := by
  simp only [estCompPart]
  split
  · refine ⟨(listCompCount line : ℚ) * listCompCO2 * 100,
      ⟨(listCompCount line : Int) * 30000, ?_⟩, ?_, by simp, rfl⟩
    · unfold listCompCO2
      push_cast
      ring
    · unfold listCompCO2
      positivity
  · exact ⟨0, mult9_zero, le_refl 0, by simp, rfl⟩

theorem estCallPart_total (line : List Char) (s : EstState) :
    (estCallPart line s).total = s.total ∧ (estCallPart line s).breakdown = s.breakdown :=
  ⟨rfl, rfl⟩

theorem estStep_spec (i : Nat) (line : List Char) (s : EstState) :
    ∃ e1 e2 : ℚ, Mult9 e1 ∧ Mult9 e2 ∧ 0 ≤ e2 ∧ (rangeOkB line = true → 0 ≤ e1) ∧
      (estStep i line s).total = s.total + e1 + e2 ∧
      breakdownSum (estStep i line s).breakdown = breakdownSum s.breakdown + e1 := by
  obtain ⟨eF, hFm, hFp, hFt, hFb⟩ :=
    estForPart_spec i line (pyStrip line) (pyIndent line) s
  obtain ⟨eW, hWm, hWp, hWt, hWb⟩ :=
    estWhilePart_spec (pyStrip line) (pyIndent line)
      (estForPart i line (pyStrip line) (pyIndent line) s)
  obtain ⟨eFi, hFim, hFip, hFit, hFib⟩ :=
    estFilePart_spec i line
      (estWhilePart (pyStrip line) (pyIndent line)
        (estForPart i line (pyStrip line) (pyIndent line) s))
  obtain ⟨eI, hIm, hIp, hIt, hIb⟩ :=
    estImportPart_spec line (pyStrip line)
      (estFilePart i line
        (estWhilePart (pyStrip line) (pyIndent line)
          (estForPart i line (pyStrip line) (pyIndent line) s)))
  obtain ⟨eC, hCm, hCp, hCt, hCb⟩ :=
    estCompPart_spec line
      (estImportPart line (pyStrip line)
        (estFilePart i line
          (estWhilePart (pyStrip line) (pyIndent line)
            (estForPart i line (pyStrip line) (pyIndent line) s))))
  have hstep : estStep i line s =
      estCallPart line
        (estCompPart line
          (estImportPart line (pyStrip line)
            (estFilePart i line
              (estWhilePart (pyStrip line) (pyIndent line)
                (estForPart i line (pyStrip line) (pyIndent line) s))))) := rfl
  refine ⟨eF + eFi, eW + eI + eC, mult9_add hFm hFim,
    mult9_add (mult9_add hWm hIm) hCm, by linarith,
    fun hok => by have := hFp hok; linarith, ?_, ?_⟩
  · rw [hstep, (estCallPart_total _ _).1, hCt, hIt, hFit, hWt, hFt]
    ring
  · rw [hstep, (estCallPart_total _ _).2, hCb, hIb, hFib, hWb, hFb]
    ring

theorem estLines_c3inv : ∀ (ls : List (List Char)) (i : Nat) (s : EstState),
    breakdownSum s.breakdown ≤ s.total → Mult9 s.total →
    breakdownSum (estLines i s ls).breakdown ≤ (estLines i s ls).total ∧
      Mult9 (estLines i s ls).total := by
  intro ls
  induction ls with
  | nil => intro i s h1 h2; exact ⟨h1, h2⟩
  | cons l ls ih =>
    intro i s h1 h2
    simp only [estLines]
    obtain ⟨e1, e2, hm1, hm2, hp2, _, ht, hb⟩ := estStep_spec i l s
    refine ih (i + 1) _ ?_ ?_
    · rw [ht, hb]; linarith
    · rw [ht]; exact mult9_add (mult9_add h2 hm1) hm2

theorem estLines_nonneg : ∀ (ls : List (List Char)) (i : Nat) (s : EstState),
    ls.all rangeOkB = true → 0 ≤ s.total → 0 ≤ (estLines i s ls).total := by
  intro ls
  induction ls with
  | nil => intro i s _ h; exact h
  | cons l ls ih =>
    intro i s hall h
    have hl : rangeOkB l = true ∧ ls.all rangeOkB = true := by simpa using hall
    simp only [estLines]
    obtain ⟨e1, e2, _, _, hp2, hp1, ht, _⟩ := estStep_spec i l s
    refine ih (i + 1) _ hl.2 ?_
    rw [ht]
    have := hp1 hl.1
    linarith

/-- C3 (amended): the estimate's total grams is at least the sum of its own
breakdown values — the while-loop, import, list-comprehension and
function-call contributions are added to the total but get no breakdown
entry, so equality fails in general (see the counterexample). -/
theorem total_ge_breakdown_sum (code : List Char) :
    breakdownSum (estimate_co2 code).breakdown ≤ (estimate_co2 code).estimated_co2_grams := by
  have hinv := estLines_c3inv (pySplit '\n' code) 0 initEstState
    (by simp [breakdownSum, initEstState]) ⟨0, by norm_num [initEstState]⟩
  have h1 : (estimate_co2 code).estimated_co2_grams =
      pyRound 9 ((estLines 0 initEstState (pySplit '\n' code)).total +
        ((estLines 0 initEstState (pySplit '\n' code)).function_calls : ℚ) *
          functionCallCO2) := rfl
  have h2 : (estimate_co2 code).breakdown =
      (estLines 0 initEstState (pySplit '\n' code)).breakdown := rfl
  have hfc : (0 : ℚ) ≤
      ((estLines 0 initEstState (pySplit '\n' code)).function_calls : ℚ) *
        functionCallCO2 := by
    unfold functionCallCO2
    positivity
  have hm : Mult9 ((estLines 0 initEstState (pySplit '\n' code)).total +
      ((estLines 0 initEstState (pySplit '\n' code)).function_calls : ℚ) *
        functionCallCO2) := by
    refine mult9_add hinv.2
      ⟨((estLines 0 initEstState (pySplit '\n' code)).function_calls : Int) * 500, ?_⟩
    unfold functionCallCO2
    push_cast
    ring
  rw [h1, h2, pyRound_mult9 hm]
  linarith [hinv.1]

/-- Counterexample to C3 as stated: for `import os` the total is the import
contribution 0.00002 g while the breakdown map is empty, so the total does
not equal the breakdown sum. -/
theorem total_ne_breakdown_sum :
    (estimate_co2 c3CounterInput).estimated_co2_grams ≠
      breakdownSum (estimate_co2 c3CounterInput).breakdown := by
  have h1 : (estimate_co2 c3CounterInput).estimated_co2_grams =
      pyRound 9 (((0 : ℚ) + importCO2) + (((0 : Nat) : ℚ) * functionCallCO2)) := rfl
  have h2 : (estimate_co2 c3CounterInput).breakdown = [] := rfl
  rw [h1, h2, pyRound_exact (⟨20000, by unfold importCO2 functionCallCO2; norm_num⟩ :
    ∃ n : ℤ, ((0 : ℚ) + importCO2) + (((0 : Nat) : ℚ) * functionCallCO2) = (n : ℚ) / 10 ^ 9)]
  unfold importCO2 functionCallCO2 breakdownSum
  norm_num

/-- C4 (amended): whenever every parsed two-argument `range(a, b)` literal in
the snippet has `a ≤ b`, the estimate's total grams and energy kWh are both
nonnegative.  (A descending literal such as `range(9, 1)` yields a negative
iteration count and breaks the claim as stated — see the counterexample.) -/
theorem co2_estimate_nonneg (code : List Char)
    (h : (pySplit '\n' code).all rangeOkB = true) :
    0 ≤ (estimate_co2 code).estimated_co2_grams ∧
    0 ≤ (estimate_co2 code).estimated_energy_kwh := by
  have htot := estLines_nonneg (pySplit '\n' code) 0 initEstState h (by simp [initEstState])
  have h1 : (estimate_co2 code).estimated_co2_grams =
      pyRound 9 ((estLines 0 initEstState (pySplit '\n' code)).total +
        ((estLines 0 initEstState (pySplit '\n' code)).function_calls : ℚ) *
          functionCallCO2) := rfl
  have h2 : (estimate_co2 code).estimated_energy_kwh =
      pyRound 12 (((estLines 0 initEstState (pySplit '\n' code)).total +
        ((estLines 0 initEstState (pySplit '\n' code)).function_calls : ℚ) *
          functionCallCO2) * (2 / 1000)) := rfl
  have hfc : (0 : ℚ) ≤
      ((estLines 0 initEstState (pySplit '\n' code)).function_calls : ℚ) *
        functionCallCO2 := by
    unfold functionCallCO2
    positivity
  constructor
  · rw [h1]
    exact pyRound_nonneg (by linarith)
  · rw [h2]
    refine pyRound_nonneg (mul_nonneg (by linarith) (by norm_num))

/-- Witness for the amended C4 on a concrete snippet satisfying the
nondecreasing-range hypothesis. -/
theorem co2_estimate_nonneg_witness :
    0 ≤ (estimate_co2 c4WitnessInput).estimated_co2_grams ∧
    0 ≤ (estimate_co2 c4WitnessInput).estimated_energy_kwh :=
  co2_estimate_nonneg c4WitnessInput (by decide)

/-- Counterexample to C4 as stated: `for i in range(9, 1):` parses to the
iteration count 1 - 9 = -8, so both the total grams and the energy come out
strictly negative. -/
theorem co2_estimate_negative :
    (estimate_co2 c4CounterInput).estimated_co2_grams < 0 ∧
    (estimate_co2 c4CounterInput).estimated_energy_kwh < 0 := by
  have h1 : (estimate_co2 c4CounterInput).estimated_co2_grams =
      pyRound 9 (((0 : ℚ) +
        ((((1 : Nat) : Int) - ((9 : Nat) : Int) : Int) : ℚ) * loopIterationCO2 *
          ((2 : ℚ) ^ (0 : Nat))) +
        (((1 : Nat) : ℚ) * functionCallCO2)) := rfl
  have h2 : (estimate_co2 c4CounterInput).estimated_energy_kwh =
      pyRound 12 ((((0 : ℚ) +
        ((((1 : Nat) : Int) - ((9 : Nat) : Int) : Int) : ℚ) * loopIterationCO2 *
          ((2 : ℚ) ^ (0 : Nat))) +
        (((1 : Nat) : ℚ) * functionCallCO2)) * (2 / 1000)) := rfl
  constructor
  · rw [h1, pyRound_exact (⟨-7500, by unfold loopIterationCO2 functionCallCO2; norm_num⟩ :
      ∃ n : ℤ, ((0 : ℚ) +
        ((((1 : Nat) : Int) - ((9 : Nat) : Int) : Int) : ℚ) * loopIterationCO2 *
          ((2 : ℚ) ^ (0 : Nat))) +
        (((1 : Nat) : ℚ) * functionCallCO2) = (n : ℚ) / 10 ^ 9)]
    unfold loopIterationCO2 functionCallCO2
    norm_num
  · rw [h2, pyRound_exact (⟨-15000, by unfold loopIterationCO2 functionCallCO2; norm_num⟩ :
      ∃ n : ℤ, (((0 : ℚ) +
        ((((1 : Nat) : Int) - ((9 : Nat) : Int) : Int) : ℚ) * loopIterationCO2 *
          ((2 : ℚ) ^ (0 : Nat))) +
        (((1 : Nat) : ℚ) * functionCallCO2)) * (2 / 1000) = (n : ℚ) / 10 ^ 12)]
    unfold loopIterationCO2 functionCallCO2
    norm_num

theorem estWhilePart_skip {stripped : List Char} {indent : Nat} {s : EstState}
    (h : matchWhile stripped = false) : estWhilePart stripped indent s = s := by
  simp [estWhilePart, h]

theorem estFilePart_skip {i : Nat} {line : List Char} {s : EstState}
    (h : pyIn kwOpenPar line = false) : estFilePart i line s = s := by
  simp [estFilePart, h]

theorem estImportPart_skip {line stripped : List Char} {s : EstState}
    (h1 : kwImportSpace.isPrefixOf stripped = false)
    (h2 : kwFromSpace.isPrefixOf stripped = false) :
    estImportPart line stripped s = s := by
  simp [estImportPart, h1, h2]

theorem estCompPart_skip {line : List Char} {s : EstState}
    (h : listCompCount line = 0) : estCompPart line s = s := by
  simp [estCompPart, h]

theorem importSpace_not_prefix_of_forIn {s : List Char} (h : matchForIn s = true) :
    kwImportSpace.isPrefixOf s = false := by
  obtain ⟨r, rfl⟩ := matchForIn_head h
  rfl

theorem fromSpace_not_prefix_of_forIn {s : List Char} (h : matchForIn s = true) :
    kwFromSpace.isPrefixOf s = false := by
  obtain ⟨r, rfl⟩ := matchForIn_head h
  rfl

theorem importSpace_not_prefix_of_while {s : List Char} (h : matchWhile s = true) :
    kwImportSpace.isPrefixOf s = false := by
  obtain ⟨r, rfl⟩ := matchWhile_head h
  rfl

theorem fromSpace_not_prefix_of_while {s : List Char} (h : matchWhile s = true) :
    kwFromSpace.isPrefixOf s = false := by
  obtain ⟨r, rfl⟩ := matchWhile_head h
  rfl

theorem estForPart_default {i : Nat} {line stripped : List Char} {indent : Nat}
    {s : EstState} (hfi : matchForIn stripped = true)
    (hsr : searchRangeTwo line = none) :
    (estForPart i line stripped indent s).total = s.total + 1000 * loopIterationCO2 ∧
    (estForPart i line stripped indent s).breakdown =
      s.breakdown ++ [(BKey.loopLine (i + 1), 1000 * loopIterationCO2)] := by
  simp [estForPart, hfi, hsr]

theorem estForPart_not_for {i : Nat} {line stripped : List Char} {indent : Nat}
    {s : EstState} (h : matchForIn stripped = false) :
    estForPart i line stripped indent s =
      { s with indent_stack := popIndents indent s.indent_stack } := by
  simp [estForPart, h]

theorem estWhilePart_hit {stripped : List Char} {indent : Nat} {s : EstState}
    (h : matchWhile stripped = true) :
    (estWhilePart stripped indent s).total = s.total + 5000 * loopIterationCO2 ∧
    (estWhilePart stripped indent s).breakdown = s.breakdown := by
  simp [estWhilePart, h]

/-- C9: in the hardware-aware estimator, a for-loop header with no parseable
`range` literal contributes exactly 1000 × 1e-6 g (recorded in the
breakdown), a while-loop header contributes exactly 5000 × 1e-6 g (not
recorded), and an unresolvable bound never becomes an error: the estimator
still returns a full result, as witnessed end-to-end on `for x in items:`
(total 0.001 g) and `while True:` (total 0.005 g). -/
theorem default_loop_contribution :
    (∀ (i : Nat) (line : List Char) (s : EstState),
        matchForIn (pyStrip line) = true → searchRangeTwo line = none →
        pyIn kwOpenPar line = false → listCompCount line = 0 →
        (estStep i line s).total = s.total + 1000 * loopIterationCO2 ∧
        (estStep i line s).breakdown =
          s.breakdown ++ [(BKey.loopLine (i + 1), 1000 * loopIterationCO2)]) ∧
    (∀ (i : Nat) (line : List Char) (s : EstState),
        matchWhile (pyStrip line) = true →
        pyIn kwOpenPar line = false → listCompCount line = 0 →
        (estStep i line s).total = s.total + 5000 * loopIterationCO2 ∧
        (estStep i line s).breakdown = s.breakdown) ∧
    (estimate_co2 c9ForLine).estimated_co2_grams = 1 / 1000 ∧
    (estimate_co2 c9ForLine).breakdown = [(BKey.loopLine 1, 1000 * loopIterationCO2)] ∧
    (estimate_co2 c9WhileLine).estimated_co2_grams = 1 / 200 ∧
    (estimate_co2 c9WhileLine).breakdown = [] := by
  refine ⟨?_, ?_, ?_, rfl, ?_, rfl⟩
  · intro i line s hfi hsr hop hlc
    have hw : matchWhile (pyStrip line) = false := matchForIn_not_while hfi
    have hstep : estStep i line s =
        estCallPart line
          (estCompPart line
            (estImportPart line (pyStrip line)
              (estFilePart i line
                (estWhilePart (pyStrip line) (pyIndent line)
                  (estForPart i line (pyStrip line) (pyIndent line) s))))) := rfl
    rw [hstep, estWhilePart_skip hw, estFilePart_skip hop,
      estImportPart_skip (importSpace_not_prefix_of_forIn hfi)
        (fromSpace_not_prefix_of_forIn hfi),
      estCompPart_skip hlc]
    exact ⟨(estCallPart_total _ _).1.trans (estForPart_default hfi hsr).1,
      (estCallPart_total _ _).2.trans (estForPart_default hfi hsr).2⟩
  · intro i line s hw hop hlc
    have hfi : matchForIn (pyStrip line) = false := matchWhile_not_forIn hw
    have hstep : estStep i line s =
        estCallPart line
          (estCompPart line
            (estImportPart line (pyStrip line)
              (estFilePart i line
                (estWhilePart (pyStrip line) (pyIndent line)
                  (estForPart i line (pyStrip line) (pyIndent line) s))))) := rfl
    rw [hstep, estForPart_not_for hfi, estFilePart_skip hop,
      estImportPart_skip (importSpace_not_prefix_of_while hw)
        (fromSpace_not_prefix_of_while hw),
      estCompPart_skip hlc]
    refine ⟨(estCallPart_total _ _).1.trans ?_, (estCallPart_total _ _).2.trans ?_⟩
    · exact (estWhilePart_hit hw).1
    · exact (estWhilePart_hit hw).2
  · have h1 : (estimate_co2 c9ForLine).estimated_co2_grams =
        pyRound 9 (((0 : ℚ) + 1000 * loopIterationCO2) +
          (((0 : Nat) : ℚ) * functionCallCO2)) := rfl
    rw [h1, pyRound_exact (⟨1000000, by unfold loopIterationCO2 functionCallCO2; norm_num⟩ :
      ∃ n : ℤ, ((0 : ℚ) + 1000 * loopIterationCO2) +
        (((0 : Nat) : ℚ) * functionCallCO2) = (n : ℚ) / 10 ^ 9)]
    unfold loopIterationCO2 functionCallCO2
    norm_num
  · have h1 : (estimate_co2 c9WhileLine).estimated_co2_grams =
        pyRound 9 (((0 : ℚ) + 5000 * loopIterationCO2) +
          (((0 : Nat) : ℚ) * functionCallCO2)) := rfl
    rw [h1, pyRound_exact (⟨5000000, by unfold loopIterationCO2 functionCallCO2; norm_num⟩ :
      ∃ n : ℤ, ((0 : ℚ) + 5000 * loopIterationCO2) +
        (((0 : Nat) : ℚ) * functionCallCO2) = (n : ℚ) / 10 ^ 9)]
    unfold loopIterationCO2 functionCallCO2
    norm_num

/-- Witness for C9's conditional parts: the default contributions on the
concrete headers `for x in items:` and `while True:`. -/
theorem default_loop_contribution_witness :
    ((estStep 0 c9ForLine initEstState).total =
        initEstState.total + 1000 * loopIterationCO2 ∧
      (estStep 0 c9ForLine initEstState).breakdown =
        initEstState.breakdown ++ [(BKey.loopLine 1, 1000 * loopIterationCO2)]) ∧
    ((estStep 0 c9WhileLine initEstState).total =
        initEstState.total + 5000 * loopIterationCO2 ∧
      (estStep 0 c9WhileLine initEstState).breakdown = initEstState.breakdown) :=
  ⟨default_loop_contribution.1 0 c9ForLine initEstState (by decide) (by decide)
      (by decide) (by decide),
    default_loop_contribution.2.1 0 c9WhileLine initEstState (by decide) (by decide)
      (by decide)⟩
